import Mathlib

/-!
# samqttif: connection manager and message envelopes

A shallow embedding of `samqttif.go`.

* Go maps (`MSI`, `map[string]string`) are association lists with unique keys:
  `m[k] = v` is `GoMap.set`, `m[k]` is `GoMap.get`.
* The MQTT transport (`mqtt.Client`, an interface value in the source) is a record of
  operations over an abstract transport state; every theorem holds for any transport.
* `uuid.New().String()` and `time.Now()...Format(...)` are inputs of the functions that
  call them (`id`, `now`); `json.Marshal` is an input record of encoders.
* Two functions of the Go standard library are embedded where a claim depends on what
  they do: `sort.Search` (`searchLoop`, `Search`) and `json.Marshal` on the values the
  package builds (`encodeValue`, `goJson`), with string quoting and number formatting
  left as inputs. `encodeValueIn` is the same encoder with the order in which a call
  ranges over each map as an input; the two agree on maps with distinct keys
  (`encodeValueIn_eq`).
* The package variable `espSupported` is the field of `Globals`, passed explicitly.
* A run-time panic (failed type assertion, call of a nil func value) is `none`.
* A map argument (`attributes`) is a non-nil map; a nil value stored in a map is
  `Value.null`.
* Transport calls and host callback invocations made by an operation are returned as a
  list of `Effect`s in the order they happen. Console output is not modelled.
-/

namespace Samqttif

/-! ## Go maps -/

/-- Go `m[k]`, with `none` for an absent key. -/
def GoMap.get {β : Type} : List (String × β) → String → Option β
  | [], _ => none
  | (k, v) :: m, x => if k = x then some v else GoMap.get m x

/-- Go `m[k] = v`: overwrite the entry of an existing key, else add one. -/
def GoMap.set {β : Type} : List (String × β) → String → β → List (String × β)
  | [], x, w => [(x, w)]
  | (k, v) :: m, x, w => if k = x then (k, w) :: m else (k, v) :: GoMap.set m x w

/-- Whether the key is present in the map. -/
def GoMap.has {β : Type} (m : List (String × β)) (x : String) : Bool :=
  (GoMap.get m x).isSome

/-! ## Values -/

/-- A Go `float64`, by its IEEE-754 bit pattern (the code stores amounts and never
computes with them). -/
structure Float64 where
  bits : Nat
  deriving DecidableEq, Repr

/-- A Go `error` value. -/
structure Error where
  msg : String
  deriving DecidableEq, Repr

/-- A Go `[]byte`. -/
abbrev Bytes := List UInt8

/-- The dynamic values stored in an `MSI` (`map[string]interface{}`): strings, floats,
booleans, integers, nil (a nil interface value, nil map or nil slice), non-nil nested
`MSI` maps, non-nil `[]MSI` slices, and `other` for a value of a type that
`json.Marshal` rejects (tagged: a channel, a func or a complex number handed in by the
caller inside an attributes map). -/
inductive Value where
  | str (s : String)
  | float (x : Float64)
  | msi (m : List (String × Value))
  | msiSlice (l : List (List (String × Value)))
  | other (tag : Nat)
  | bool (b : Bool)
  | int (n : Int)
  | null

/-- The type `MSI`: `map[string]interface{}`. -/
abbrev MSI := List (String × Value)

/-- The package-level variables. -/
structure Globals where
  espSupported : Bool
  deriving DecidableEq, Repr

/-! ## SensorValueMessage -/

/-- The struct `SensorValueMessage`. -/
structure SensorValueMessage where
  Esp : Bool
  Topic : String
  Payload : MSI

/-- `NewSensorValueMessage(entity, datetime)`. Both branches call `uuid.New().String()`
exactly once; `id` is its result. -/
def NewSensorValueMessage (g : Globals) (id : String) (entity datetime : String) :
    SensorValueMessage :=
  let topic := if !g.espSupported then "sdw" ++ entity else "esp" ++ entity
  let esp := g.espSupported
  let payload : MSI := []
  let payload :=
    if !esp then
      GoMap.set (GoMap.set payload "entity" (Value.str entity)) "commandId" (Value.str id)
    else
      GoMap.set payload "messageId" (Value.str id)
  let payload := GoMap.set payload "datetime" (Value.str datetime)
  let payload := GoMap.set payload "values" (Value.msiSlice [])
  { Esp := esp, Topic := topic, Payload := payload }

/-- The statement `svm.Payload["values"] = append(svm.Payload["values"].([]MSI), value)`
shared by the four `Add*` methods. The type assertion panics (`none`) when the entry is
absent or is not a `[]MSI`. -/
def appendValue (svm : SensorValueMessage) (value : MSI) : Option SensorValueMessage :=
  match GoMap.get svm.Payload "values" with
  | some (Value.msiSlice vs) =>
    some { svm with Payload := GoMap.set svm.Payload "values" (Value.msiSlice (vs ++ [value])) }
  | _ => none

/-- `svm.AddValue(field, amount)`. -/
def SensorValueMessage.AddValue (svm : SensorValueMessage) (field : String)
    (amount : Float64) : Option SensorValueMessage :=
  let value : MSI := [("field", Value.str field), ("amount", Value.float amount)]
  appendValue svm value

/-- `svm.AddValueAttrib(field, amount, attributes)`. -/
def SensorValueMessage.AddValueAttrib (svm : SensorValueMessage) (field : String)
    (amount : Float64) (attributes : MSI) : Option SensorValueMessage :=
  let value : MSI :=
    [("field", Value.str field), ("amount", Value.float amount),
     ("attributes", Value.msi attributes)]
  appendValue svm value

/-- `svm.AddValueAttribCreated(field, amount, attributes, created)`. -/
def SensorValueMessage.AddValueAttribCreated (svm : SensorValueMessage) (field : String)
    (amount : Float64) (attributes : MSI) (created : String) : Option SensorValueMessage :=
  let value : MSI :=
    if svm.Esp then
      [("field", Value.str field), ("amount", Value.float amount),
       ("attributes", Value.msi attributes)]
    else
      [("field", Value.str field), ("amount", Value.float amount),
       ("attributes", Value.msi attributes), ("created", Value.str created)]
  appendValue svm value

/-- `svm.AddValueCreated(field, amount, created)`. -/
def SensorValueMessage.AddValueCreated (svm : SensorValueMessage) (field : String)
    (amount : Float64) (created : String) : Option SensorValueMessage :=
  let value : MSI :=
    if svm.Esp then
      [("field", Value.str field), ("amount", Value.float amount)]
    else
      [("field", Value.str field), ("amount", Value.float amount),
       ("created", Value.str created)]
  appendValue svm value

/-- A call of one of the four `Add*` methods, with its arguments. -/
inductive AddCall where
  | value (field : String) (amount : Float64)
  | valueAttrib (field : String) (amount : Float64) (attributes : MSI)
  | valueCreated (field : String) (amount : Float64) (created : String)
  | valueAttribCreated (field : String) (amount : Float64) (attributes : MSI)
      (created : String)

/-- The `field` argument of the call. -/
def AddCall.field : AddCall → String
  | .value f _ => f
  | .valueAttrib f _ _ => f
  | .valueCreated f _ _ => f
  | .valueAttribCreated f _ _ _ => f

/-- The `amount` argument of the call. -/
def AddCall.amount : AddCall → Float64
  | .value _ a => a
  | .valueAttrib _ a _ => a
  | .valueCreated _ a _ => a
  | .valueAttribCreated _ a _ _ => a

/-- Make the call on an envelope. -/
def AddCall.apply (svm : SensorValueMessage) : AddCall → Option SensorValueMessage
  | .value f a => svm.AddValue f a
  | .valueAttrib f a attrs => svm.AddValueAttrib f a attrs
  | .valueCreated f a cr => svm.AddValueCreated f a cr
  | .valueAttribCreated f a attrs cr => svm.AddValueAttribCreated f a attrs cr

/-- The record the call appends to `"values"`, on an envelope whose `Esp` field is
`esp` (the map literal built in the called method). -/
def AddCall.record (esp : Bool) : AddCall → MSI
  | .value f a => [("field", Value.str f), ("amount", Value.float a)]
  | .valueAttrib f a attrs =>
    [("field", Value.str f), ("amount", Value.float a), ("attributes", Value.msi attrs)]
  | .valueCreated f a cr =>
    if esp then [("field", Value.str f), ("amount", Value.float a)]
    else [("field", Value.str f), ("amount", Value.float a), ("created", Value.str cr)]
  | .valueAttribCreated f a attrs cr =>
    if esp then
      [("field", Value.str f), ("amount", Value.float a), ("attributes", Value.msi attrs)]
    else
      [("field", Value.str f), ("amount", Value.float a), ("attributes", Value.msi attrs),
       ("created", Value.str cr)]

/-- Make a sequence of `Add*` calls in order; a panic ends the sequence. -/
def applyCalls (svm : SensorValueMessage) : List AddCall → Option SensorValueMessage
  | [] => some svm
  | k :: ks =>
    match k.apply svm with
    | some svm1 => applyCalls svm1 ks
    | none => none

/-- The `"values"` entry of the payload, when it is a `[]MSI`. -/
def SensorValueMessage.values (svm : SensorValueMessage) : Option (List MSI) :=
  match GoMap.get svm.Payload "values" with
  | some (Value.msiSlice vs) => some vs
  | _ => none

/-- The last record of the `"values"` entry. -/
def SensorValueMessage.lastValue (svm : SensorValueMessage) : Option MSI :=
  match svm.values with
  | some vs => vs.getLast?
  | none => none

/-- The encoders of `encoding/json` the package calls: `json.Marshal` at type `MSI` and at
type `map[string]string`. -/
structure Json where
  marshalMSI : MSI → Except Error Bytes
  marshalStringMap : List (String × String) → Except Error Bytes

/-- `svm.json()`: on a marshal error the message is printed and the nil slice that
`json.Marshal` returned with it (an empty byte sequence) is returned. -/
def SensorValueMessage.json (J : Json) (svm : SensorValueMessage) : Bytes :=
  match J.marshalMSI svm.Payload with
  | .ok jsonData => jsonData
  | .error _ => []

/-- An operation on an envelope: one of the `Add*` calls, or a call of `json()`. -/
inductive EnvelopeOp where
  | add (k : AddCall)
  | json

/-- Make a sequence of envelope operations in order: the envelope at the end and the
outputs of the `json()` calls, in call order. `json()` only reads the envelope. A panic
in an `Add*` call ends the sequence (`none`). -/
def runOps (J : Json) (svm : SensorValueMessage) :
    List EnvelopeOp → Option (SensorValueMessage × List Bytes)
  | [] => some (svm, [])
  | .add k :: ops =>
    match k.apply svm with
    | none => none
    | some svm1 => runOps J svm1 ops
  | .json :: ops =>
    match runOps J svm ops with
    | none => none
    | some (svm1, out) => some (svm1, svm.json J :: out)

/-! ## Membership tests -/

/-- Go's `x < y` on strings, on their characters: lexicographic, characters compared
by code point (the order of the UTF-8 bytes Go compares). -/
def strLt : List Char → List Char → Bool
  | _, [] => false
  | [], _ :: _ => true
  | c :: cs, d :: ds =>
    if c.toNat < d.toNat then true
    else if d.toNat < c.toNat then false
    else strLt cs ds

/-- Go's `x <= y` on strings. -/
def strLe (x y : String) : Bool := !strLt y.data x.data

/-- `linearContains(a, x)`. -/
def linearContains : List String → String → Bool
  | [], _ => false
  | n :: a, x => if x = n then true else linearContains a x

/-- The loop of `sort.Search` (Go standard library) from the state `i`, `j`:
`for i < j { h := int(uint(i+j) >> 1); if !f(h) { i = h + 1 } else { j = h } }; return i`.
The first argument bounds the number of iterations; `j - i` iterations are always
enough (`searchLoop_fuel`). `f` returns `none` when it panics. -/
def searchLoop (f : Nat → Option Bool) : Nat → Nat → Nat → Option Nat
  | 0, i, _ => some i
  | fuel + 1, i, j =>
    if i < j then
      match f ((i + j) / 2) with
      | none => none
      | some false => searchLoop f fuel ((i + j) / 2 + 1) j
      | some true => searchLoop f fuel i ((i + j) / 2)
    else some i

/-- The call `sort.Search(n, f)`. -/
def Search (n : Nat) (f : Nat → Option Bool) : Option Nat :=
  searchLoop f n 0 n

/-- `binaryContains(a, x)`; `none` is an index-out-of-range panic, in the closure passed
to `sort.Search` or in `a[i] == x`. -/
def binaryContains (a : List String) (x : String) : Option Bool :=
  match Search a.length (fun i => (a[i]?).map (fun n => strLe x n)) with
  | none => none
  | some i =>
    if i < a.length then
      match a[i]? with
      | some n => if n = x then some true else some false
      | none => none
    else some false

/-! ## The JSON encoder -/

/-- The text-level functions the encoder relies on: how a string is written as a JSON
string (quoting and escaping) and how a `float64` is written as a JSON number (an error
for NaN and the infinities). -/
structure TextEncoding where
  quote : String → String
  formatFloat : Float64 → Except Error String

/-- Insert an encoded entry into a list of entries sorted by key. -/
def insertByKey (k : String) (t : String) : List (String × String) → List (String × String)
  | [] => [(k, t)]
  | (k1, t1) :: es =>
    if strLt k.data k1.data then (k, t) :: (k1, t1) :: es
    else (k1, t1) :: insertByKey k t es

/-- Sort encoded entries by key. -/
def sortByKey : List (String × String) → List (String × String)
  | [] => []
  | (k, t) :: es => insertByKey k t (sortByKey es)

/-- Join texts with commas. -/
def joinComma : List String → String
  | [] => ""
  | [t] => t
  | t :: ts => t ++ "," ++ joinComma ts

/-- The JSON object of a map whose values are already encoded: the entries in sorted key
order, each written `key:value`. -/
def objectText (E : TextEncoding) (es : List (String × String)) : String :=
  "\x7b" ++ joinComma ((sortByKey es).map (fun p => E.quote p.1 ++ ":" ++ p.2)) ++ "\x7d"

mutual
/-- A model of `json.Marshal` of the Go standard library (package `encoding/json`) on
the values of `Value`, as text: a string is quoted and a `float64` formatted (both by
`E`), a boolean is `true` or `false`, an integer its decimal digits, nil is `null`, a
non-nil map is an object whose keys are written in sorted order, a non-nil `[]MSI` is
an array in element order, and a value of an unsupported type is an error. When several
values fail, which error is returned is not modelled (`json()` drops it). -/
def encodeValue (E : TextEncoding) : Value → Except Error String
  | .str s => .ok (E.quote s)
  | .float x => E.formatFloat x
  | .msi m =>
    match encodeEntries E m with
    | .ok es => .ok (objectText E es)
    | .error e => .error e
  | .msiSlice l =>
    match encodeMaps E l with
    | .ok ts => .ok ("[" ++ joinComma ts ++ "]")
    | .error e => .error e
  | .other _ => .error { msg := "json: unsupported type" }
  | .bool b => .ok (if b then "true" else "false")
  | .int n => .ok (toString n)
  | .null => .ok "null"
/-- Encode the values of the entries of a map. -/
def encodeEntries (E : TextEncoding) :
    List (String × Value) → Except Error (List (String × String))
  | [] => .ok []
  | (k, v) :: m =>
    match encodeValue E v with
    | .ok t =>
      match encodeEntries E m with
      | .ok es => .ok ((k, t) :: es)
      | .error e => .error e
    | .error e => .error e
/-- Encode the maps of a `[]MSI`. -/
def encodeMaps (E : TextEncoding) :
    List (List (String × Value)) → Except Error (List String)
  | [] => .ok []
  | m :: l =>
    match encodeEntries E m with
    | .ok es =>
      match encodeMaps E l with
      | .ok ts => .ok (objectText E es :: ts)
      | .error e => .error e
    | .error e => .error e
end

/-- The UTF-8 bytes of a text. -/
def utf8Bytes (t : String) : Bytes := t.toUTF8.data.toList

/-- The encoders of `Json` given by the model of `json.Marshal`. -/
def goJson (E : TextEncoding) : Json where
  marshalMSI m :=
    match encodeValue E (Value.msi m) with
    | .ok t => .ok (utf8Bytes t)
    | .error e => .error e
  marshalStringMap m := .ok (utf8Bytes (objectText E (m.map (fun p => (p.1, E.quote p.2)))))

/-- Whether the text starts with the pattern. -/
def startsWith : List Char → List Char → Bool
  | _, [] => true
  | [], _ :: _ => false
  | c :: cs, p :: ps => if c = p then startsWith cs ps else false

/-- Whether the pattern occurs in the text as a contiguous piece. -/
def containsText : List Char → List Char → Bool
  | [], pat => startsWith [] pat
  | c :: cs, pat => if startsWith (c :: cs) pat then true else containsText cs pat

/-- The order in which one `range` over a Go map yields its entries: some rearrangement
of them, not fixed by the language and different from one run to the next. -/
structure MapOrder where
  arrange : List (String × String) → List (String × String)
  perm : ∀ es, (arrange es).Perm es

/-- The JSON object of a map as `json.Marshal` builds it: the entries are collected in
the order `ρ` in which the map is ranged over, sorted by key, and written. -/
def objectTextIn (E : TextEncoding) (ρ : MapOrder) (es : List (String × String)) : String :=
  "\x7b" ++ joinComma ((sortByKey (ρ.arrange es)).map (fun p => E.quote p.1 ++ ":" ++ p.2))
    ++ "\x7d"

mutual
/-- The model of `json.Marshal` with the order `ρ` in which this call ranges over each
map made explicit; otherwise as `encodeValue`. -/
def encodeValueIn (E : TextEncoding) (ρ : MapOrder) : Value → Except Error String
  | .str s => .ok (E.quote s)
  | .float x => E.formatFloat x
  | .msi m =>
    match encodeEntriesIn E ρ m with
    | .ok es => .ok (objectTextIn E ρ es)
    | .error e => .error e
  | .msiSlice l =>
    match encodeMapsIn E ρ l with
    | .ok ts => .ok ("[" ++ joinComma ts ++ "]")
    | .error e => .error e
  | .other _ => .error { msg := "json: unsupported type" }
  | .bool b => .ok (if b then "true" else "false")
  | .int n => .ok (toString n)
  | .null => .ok "null"
/-- Encode the values of the entries of a map, with explicit map order. -/
def encodeEntriesIn (E : TextEncoding) (ρ : MapOrder) :
    List (String × Value) → Except Error (List (String × String))
  | [] => .ok []
  | (k, v) :: m =>
    match encodeValueIn E ρ v with
    | .ok t =>
      match encodeEntriesIn E ρ m with
      | .ok es => .ok ((k, t) :: es)
      | .error e => .error e
    | .error e => .error e
/-- Encode the maps of a `[]MSI`, with explicit map order. -/
def encodeMapsIn (E : TextEncoding) (ρ : MapOrder) :
    List (List (String × Value)) → Except Error (List String)
  | [] => .ok []
  | m :: l =>
    match encodeEntriesIn E ρ m with
    | .ok es =>
      match encodeMapsIn E ρ l with
      | .ok ts => .ok (objectTextIn E ρ es :: ts)
      | .error e => .error e
    | .error e => .error e
end

/-- The encoder of `Json` for a call of `json.Marshal` that ranges over the maps in the
order `ρ`. -/
def goJsonIn (E : TextEncoding) (ρ : MapOrder) : Json where
  marshalMSI m :=
    match encodeValueIn E ρ (Value.msi m) with
    | .ok t => .ok (utf8Bytes t)
    | .error e => .error e
  marshalStringMap m :=
    .ok (utf8Bytes (objectTextIn E ρ (m.map (fun p => (p.1, E.quote p.2)))))

mutual
/-- Every map inside the value has distinct keys, as every Go map has. -/
def Value.keysDistinct : Value → Prop
  | .msi m => (m.map Prod.fst).Nodup ∧ entriesDistinct m
  | .msiSlice l => mapsDistinct l
  | _ => True
/-- Every map inside the values of the entries has distinct keys. -/
def entriesDistinct : List (String × Value) → Prop
  | [] => True
  | (_, v) :: m => v.keysDistinct ∧ entriesDistinct m
/-- Every map of the slice, and every map inside it, has distinct keys. -/
def mapsDistinct : List (List (String × Value)) → Prop
  | [] => True
  | m :: l => ((m.map Prod.fst).Nodup ∧ entriesDistinct m) ∧ mapsDistinct l
end

/-- The attributes map handed to the call, if any, has distinct keys at every level. -/
def AddCall.attrsDistinct : AddCall → Prop
  | .valueAttrib _ _ attrs => Value.keysDistinct (Value.msi attrs)
  | .valueAttribCreated _ _ attrs _ => Value.keysDistinct (Value.msi attrs)
  | _ => True

/-! ## The transport -/

/-- The settings `Initialize` puts into `mqtt.NewClientOptions()` (the two handlers it
installs are `onConnect` and `onDisconnect` below). Times are in milliseconds. -/
structure ClientOptions where
  servers : List String
  clientID : String
  writeTimeout : Nat
  autoReconnect : Bool
  maxReconnectInterval : Nat
  deriving DecidableEq, Repr

/-- The part of the interface `mqtt.Client` the package uses, over a transport state `σ`.
A token is represented by the result of `token.Wait() && token.Error() != nil`:
`some err` for a failed operation, `none` for a successful one. -/
structure MqttClient (σ : Type) where
  NewClient : ClientOptions → σ
  IsConnected : σ → Bool
  Connect : σ → σ × Option Error
  Publish : σ → String → Nat → Bool → Bytes → σ × Option Error
  Disconnect : σ → Nat → σ

/-- A host function of type `MqttCallback` (`func()`), by its identity; running it is
the effect `Effect.callback`. -/
structure MqttCallback where
  id : Nat
  deriving DecidableEq, Repr

/-- What an operation does to the outside: calls into the transport and invocations of
host callbacks. -/
inductive Effect where
  | connect
  | publish (topic : String) (qos : Nat) (retained : Bool) (payload : Bytes)
  | disconnect (quiesce : Nat)
  | callback (f : MqttCallback)
  deriving DecidableEq, Repr

/-- Whether the effect is a call of the transport's `Connect`. -/
def Effect.isConnect : Effect → Bool
  | .connect => true
  | _ => false

/-- Whether the effect is a call of the transport's `Publish`. -/
def Effect.isPublish : Effect → Bool
  | .publish _ _ _ _ => true
  | _ => false

/-! ## SAMqttClient -/

/-- The struct `SAMqttClient` (the never-assigned `logger` field is left out). A func
field that is nil is `none`. -/
structure SAMqttClient (σ : Type) where
  host : String
  port : String
  clientID : String
  client : σ
  report : List String
  connectedOnce : Bool
  connectCallback : Option MqttCallback
  disconnectCallback : Option MqttCallback
  debug : Bool
  deriving DecidableEq, Repr

/-- The outcome of a method that returns `error`: the client afterwards, the returned
error (`none` is nil) and the effects of the call. -/
structure Result (σ : Type) where
  client : SAMqttClient σ
  err : Option Error
  effects : List Effect
  deriving DecidableEq, Repr

/-- The handler `onConnect` of `Initialize`, run by the transport on every connect.
Calling a nil `connectCallback` panics. -/
def onConnect {σ : Type} (c : SAMqttClient σ) : Option (SAMqttClient σ × List Effect) :=
  let c := { c with connectedOnce := true }
  match c.connectCallback with
  | some f => some (c, [Effect.callback f])
  | none => none

/-- The handler `onDisconnect` of `Initialize`, run by the transport when the connection
is lost. Calling a nil `disconnectCallback` panics. -/
def onDisconnect {σ : Type} (c : SAMqttClient σ) (_err : Error) :
    Option (SAMqttClient σ × List Effect) :=
  let c := { c with connectedOnce := false }
  match c.disconnectCallback with
  | some f => some (c, [Effect.callback f])
  | none => none

/-- The options built by `c.Initialize()` from the client's host, port and client id. -/
def initOptions (host port clientID : String) : ClientOptions :=
  let broker := "tcp://" ++ host ++ ":" ++ port
  { servers := [broker], clientID := clientID, writeTimeout := 25,
    autoReconnect := true, maxReconnectInterval := 5000 }

/-- `c.Initialize()`: build the options and create the transport client. (With `debug`
set it also points the transport's loggers at standard output.) -/
def SAMqttClient.Initialize {σ : Type} (T : MqttClient σ) (c : SAMqttClient σ) :
    SAMqttClient σ :=
  { c with client := T.NewClient (initOptions c.host c.port c.clientID) }

/-- `NewSAMqttClient(host, port, clientID, esp, debug)`: assigns the package variable
`espSupported`, builds the struct with zero values for the fields it does not name and
initializes it. The transport handle, nil in the source until `Initialize` assigns it,
holds the value `Initialize` gives it from the start. -/
def NewSAMqttClient {σ : Type} (T : MqttClient σ) (_g : Globals)
    (host port clientID : String) (esp debug : Bool) : Globals × SAMqttClient σ :=
  let g : Globals := { espSupported := esp }
  let client : SAMqttClient σ :=
    { host := host, port := port, clientID := clientID,
      client := T.NewClient (initOptions host port clientID),
      report := [], connectedOnce := false, connectCallback := none,
      disconnectCallback := none, debug := debug }
  (g, SAMqttClient.Initialize T client)

/-- `c.RegisterConnectionCallbacks(connect, disconnect)`. -/
def SAMqttClient.RegisterConnectionCallbacks {σ : Type} (c : SAMqttClient σ)
    (connect disconnect : Option MqttCallback) : SAMqttClient σ :=
  { c with connectCallback := connect, disconnectCallback := disconnect }

/-- `c.Connect()`. -/
def SAMqttClient.Connect {σ : Type} (T : MqttClient σ) (c : SAMqttClient σ) : Result σ :=
  let token := T.Connect c.client
  let c := { c with client := token.1 }
  match token.2 with
  | some e => { client := c, err := some e, effects := [Effect.connect] }
  | none => { client := c, err := none, effects := [Effect.connect] }

/-- The first statement of `Publish`:
`if !c.client.IsConnected() && !c.connectedOnce { c.Connect() }`. The error returned by
`c.Connect()` is discarded. -/
def SAMqttClient.connectIfNeverConnected {σ : Type} (T : MqttClient σ)
    (c : SAMqttClient σ) : SAMqttClient σ × List Effect :=
  if !T.IsConnected c.client && !c.connectedOnce then
    let r := SAMqttClient.Connect T c
    (r.client, r.effects)
  else
    (c, [])

/-- `c.Publish(topic, payload)`. -/
def SAMqttClient.Publish {σ : Type} (T : MqttClient σ) (c : SAMqttClient σ)
    (topic : String) (payload : Bytes) : Result σ :=
  let r := SAMqttClient.connectIfNeverConnected T c
  let c := r.1
  if T.IsConnected c.client then
    let token := T.Publish c.client topic 0 false payload
    let c := { c with client := token.1 }
    match token.2 with
    | some e =>
      { client := c, err := some e,
        effects := r.2 ++ [Effect.publish topic 0 false payload] }
    | none =>
      { client := c, err := none,
        effects := r.2 ++ [Effect.publish topic 0 false payload] }
  else
    { client := c, err := none, effects := r.2 }

/-- `c.PublishValueMessage(svm)`; the error of `Publish` is dropped. -/
def SAMqttClient.PublishValueMessage {σ : Type} (T : MqttClient σ) (J : Json)
    (c : SAMqttClient σ) (svm : SensorValueMessage) : SAMqttClient σ × List Effect :=
  let r := SAMqttClient.Publish T c (svm.Topic ++ "[value]") (svm.json J)
  (r.client, r.effects)

/-- `c.Cleanup()`. -/
def SAMqttClient.Cleanup {σ : Type} (T : MqttClient σ) (c : SAMqttClient σ) : Result σ :=
  { client := { c with client := T.Disconnect c.client 10 }, err := none,
    effects := [Effect.disconnect 10] }

/-! ## Status messages -/

/-- The first part of `publishStatus` (up to the call of `json.Marshal`): the payload
map and the topic prefix. `now` is the formatted `time.Now().UTC()`, `id` the result of
the one `uuid.New().String()` call. -/
def statusPayload (g : Globals) (now id : String) (status description : String) :
    List (String × String) × String :=
  let payload : List (String × String) := []
  let payload := GoMap.set payload "status" status
  let payload := GoMap.set payload "datetime" now
  let (payload, topicPrefix) :=
    if g.espSupported then
      (GoMap.set payload "messageId" id, "esp")
    else
      (GoMap.set payload "commandId" id, "sdw")
  let payload :=
    if description.utf8ByteSize > 0 then GoMap.set payload "description" description
    else payload
  (payload, topicPrefix)

/-- `c.publishStatus(path, status, description)`: when marshalling fails nothing is
published; the error of `Publish` is dropped. -/
def SAMqttClient.publishStatus {σ : Type} (T : MqttClient σ) (J : Json) (g : Globals)
    (now id : String) (c : SAMqttClient σ) (path status description : String) :
    SAMqttClient σ × List Effect :=
  let built := statusPayload g now id status description
  match J.marshalStringMap built.1 with
  | .error _ => (c, [])
  | .ok jsonData =>
    let topic := built.2 ++ path
    let r := SAMqttClient.Publish T c topic jsonData
    (r.client, r.effects)

/-- `c.PublishRunning(path)`. -/
def SAMqttClient.PublishRunning {σ : Type} (T : MqttClient σ) (J : Json) (g : Globals)
    (now id : String) (c : SAMqttClient σ) (path : String) : SAMqttClient σ × List Effect :=
  SAMqttClient.publishStatus T J g now id c (path ++ "[status]") "RUNNING" ""

/-- `c.PublishNotRunning(path)`. -/
def SAMqttClient.PublishNotRunning {σ : Type} (T : MqttClient σ) (J : Json) (g : Globals)
    (now id : String) (c : SAMqttClient σ) (path : String) : SAMqttClient σ × List Effect :=
  SAMqttClient.publishStatus T J g now id c (path ++ "[status]") "NOT_RUNNING" ""

/-- `c.PublishError(path, description)`. -/
def SAMqttClient.PublishError {σ : Type} (T : MqttClient σ) (J : Json) (g : Globals)
    (now id : String) (c : SAMqttClient σ) (path description : String) :
    SAMqttClient σ × List Effect :=
  SAMqttClient.publishStatus T J g now id c (path ++ "[status]") "ERROR" description

/-! ## Runs of a client -/

/-- What can happen to a client: the host calls `RegisterConnectionCallbacks`, `Connect`
or `Publish`; the transport, having moved to state `s` on its own, runs the connect
handler or the connection-lost handler. -/
inductive Action (σ : Type) where
  | register (connect disconnect : Option MqttCallback)
  | connect
  | publish (topic : String) (payload : Bytes)
  | connectEvent (s : σ)
  | connectionLost (s : σ) (err : Error)

/-- One action on a client; `none` when a handler panics. -/
def step {σ : Type} (T : MqttClient σ) (c : SAMqttClient σ) :
    Action σ → Option (SAMqttClient σ × List Effect)
  | .register f g => some (c.RegisterConnectionCallbacks f g, [])
  | .connect => some ((c.Connect T).client, (c.Connect T).effects)
  | .publish topic payload =>
    some ((c.Publish T topic payload).client, (c.Publish T topic payload).effects)
  | .connectEvent s => onConnect { c with client := s }
  | .connectionLost s err => onDisconnect { c with client := s } err

/-- A sequence of actions, in order, with the effects accumulated. -/
def run {σ : Type} (T : MqttClient σ) (c : SAMqttClient σ) :
    List (Action σ) → Option (SAMqttClient σ × List Effect)
  | [] => some (c, [])
  | a :: as =>
    match step T c a with
    | none => none
    | some (c1, e1) =>
      match run T c1 as with
      | none => none
      | some (c2, e2) => some (c2, e1 ++ e2)

/-- The value of `connectedOnce` predicted from the transport events of a run: `true`
after a connect event, `false` after a connection-lost event, unchanged otherwise. -/
def flagAfter {σ : Type} : Bool → List (Action σ) → Bool
  | b, [] => b
  | _, .connectEvent _ :: as => flagAfter true as
  | _, .connectionLost _ _ :: as => flagAfter false as
  | b, _ :: as => flagAfter b as

/-- Whether the effect is the invocation of a host callback. -/
def Effect.isCallback : Effect → Bool
  | .callback _ => true
  | _ => false

/-- Whether the action is a call of `RegisterConnectionCallbacks`. -/
def Action.isRegister {σ : Type} : Action σ → Bool
  | .register _ _ => true
  | _ => false

/-- The callback invocations expected from the transport events of a run, with `f`
registered as connect callback and `g` as disconnect callback: one invocation of `f` per
connect event, one of `g` per connection-lost event, in the order of the events. -/
def callbackTrace {σ : Type} (f g : MqttCallback) : List (Action σ) → List Effect
  | [] => []
  | .connectEvent _ :: as => Effect.callback f :: callbackTrace f g as
  | .connectionLost _ _ :: as => Effect.callback g :: callbackTrace f g as
  | _ :: as => callbackTrace f g as

/-! ## A concrete transport and encoder, for instances of the theorems -/

/-- The state of the sample transport: whether it is connected, and whether the broker
answers. -/
structure Sim where
  connected : Bool
  brokerUp : Bool
  deriving DecidableEq, Repr

/-- A sample transport: `Connect` and `Publish` succeed exactly when the broker answers. -/
def simTransport : MqttClient Sim where
  NewClient _ := { connected := false, brokerUp := false }
  IsConnected s := s.connected
  Connect s :=
    if s.brokerUp then ({ s with connected := true }, none)
    else ({ s with connected := false }, some { msg := "network unreachable" })
  Publish s _ _ _ _ :=
    if s.brokerUp then (s, none) else (s, some { msg := "write timeout" })
  Disconnect s _ := { s with connected := false }

/-- A sample client on the sample transport, as constructed with dialect B. -/
def simClient : SAMqttClient Sim :=
  (NewSAMqttClient simTransport { espSupported := false } "broker" "1883" "dev1" false false).2

/-- A sample encoder (not JSON): one byte per entry, the length of its key. It never
fails. -/
def simJson : Json where
  marshalMSI m := .ok (m.map (fun p => UInt8.ofNat p.1.length))
  marshalStringMap m := .ok (m.map (fun p => UInt8.ofNat p.1.length))

/-- A sample of the text functions: a string is put between double quotes (right for
strings that need no escaping), and the number formatter knows 21.5 only. -/
def sampleText : TextEncoding where
  quote s := "\x22" ++ s ++ "\x22"
  formatFloat x :=
    if x.bits = 0x4035800000000000 then .ok "21.5"
    else .error { msg := "json: unsupported value" }

/-- The map order that yields the entries as they are listed. -/
def listOrder : MapOrder where
  arrange es := es
  perm es := List.Perm.refl es

/-- The map order that yields the entries last to first. -/
def reverseOrder : MapOrder where
  arrange es := es.reverse
  perm es := List.reverse_perm es

/-! ## Lemmas on the client operations -/

theorem Connect_connectedOnce {σ : Type} (T : MqttClient σ) (c : SAMqttClient σ) :
    (c.Connect T).client.connectedOnce = c.connectedOnce := by
  unfold SAMqttClient.Connect
  simp only
  split <;> rfl

theorem Connect_effects {σ : Type} (T : MqttClient σ) (c : SAMqttClient σ) :
    (c.Connect T).effects = [Effect.connect] := by
  unfold SAMqttClient.Connect
  simp only
  split <;> rfl

theorem Connect_transport {σ : Type} (T : MqttClient σ) (c : SAMqttClient σ) :
    (c.Connect T).client.client = (T.Connect c.client).1 := by
  unfold SAMqttClient.Connect
  simp only
  split <;> rfl

theorem connectIfNeverConnected_connectedOnce {σ : Type} (T : MqttClient σ)
    (c : SAMqttClient σ) :
    (c.connectIfNeverConnected T).1.connectedOnce = c.connectedOnce := by
  unfold SAMqttClient.connectIfNeverConnected
  split
  · exact Connect_connectedOnce T c
  · rfl

theorem Publish_connectedOnce {σ : Type} (T : MqttClient σ) (c : SAMqttClient σ)
    (topic : String) (payload : Bytes) :
    (c.Publish T topic payload).client.connectedOnce = c.connectedOnce := by
  unfold SAMqttClient.Publish
  simp only
  split
  · split <;> exact connectIfNeverConnected_connectedOnce T c
  · exact connectIfNeverConnected_connectedOnce T c

theorem step_connectedOnce {σ : Type} (T : MqttClient σ) (c c1 : SAMqttClient σ)
    (a : Action σ) (e : List Effect) (h : step T c a = some (c1, e)) :
    c1.connectedOnce = flagAfter c.connectedOnce [a] := by
  cases a with
  | register f g =>
    simp only [step, Option.some.injEq, Prod.mk.injEq] at h
    rw [← h.1]; rfl
  | connect =>
    simp only [step, Option.some.injEq, Prod.mk.injEq] at h
    rw [← h.1]; exact Connect_connectedOnce T c
  | publish topic payload =>
    simp only [step, Option.some.injEq, Prod.mk.injEq] at h
    rw [← h.1]; exact Publish_connectedOnce T c topic payload
  | connectEvent s =>
    simp only [step, onConnect] at h
    split at h
    · simp only [Option.some.injEq, Prod.mk.injEq] at h
      rw [← h.1]; rfl
    · exact absurd h (by simp)
  | connectionLost s err =>
    simp only [step, onDisconnect] at h
    split at h
    · simp only [Option.some.injEq, Prod.mk.injEq] at h
      rw [← h.1]; rfl
    · exact absurd h (by simp)

theorem flagAfter_cons {σ : Type} (b : Bool) (a : Action σ) (as : List (Action σ)) :
    flagAfter b (a :: as) = flagAfter (flagAfter b [a]) as := by
  cases a <;> rfl

theorem run_connectedOnce {σ : Type} (T : MqttClient σ) (acts : List (Action σ)) :
    ∀ (c c1 : SAMqttClient σ) (e : List Effect), run T c acts = some (c1, e) →
      c1.connectedOnce = flagAfter c.connectedOnce acts := by
  induction acts with
  | nil =>
    intro c c1 e h
    simp only [run, Option.some.injEq, Prod.mk.injEq] at h
    rw [← h.1]; rfl
  | cons a as ih =>
    intro c c1 e h
    simp only [run] at h
    cases hs : step T c a with
    | none => rw [hs] at h; exact absurd h (by simp)
    | some p =>
      obtain ⟨c2, e2⟩ := p
      rw [hs] at h
      simp only at h
      cases hr : run T c2 as with
      | none => rw [hr] at h; exact absurd h (by simp)
      | some q =>
        obtain ⟨c3, e3⟩ := q
        rw [hr] at h
        simp only [Option.some.injEq, Prod.mk.injEq] at h
        rw [flagAfter_cons, ← step_connectedOnce T c c2 a e2 hs, ← h.1]
        exact ih c2 c3 e3 hr

/-! ## The connectedOnce flag (C1) -/

/-- C1, as stated, fails: on a client whose callbacks are registered, a connect event
makes `connectedOnce` true and the connection-lost event that follows sets it back to
false. -/
theorem connectedOnce_reset_by_connectionLost :
    (run simTransport simClient
        [Action.register (some { id := 1 }) (some { id := 2 }),
         Action.connectEvent { connected := true, brokerUp := true }]).map
      (fun r => r.1.connectedOnce) = some true ∧
    (run simTransport simClient
        [Action.register (some { id := 1 }) (some { id := 2 }),
         Action.connectEvent { connected := true, brokerUp := true },
         Action.connectionLost { connected := false, brokerUp := false }
           { msg := "EOF" }]).map
      (fun r => r.1.connectedOnce) = some false := by
  constructor <;> rfl

/-- C1, amended: in every state reached from `NewSAMqttClient` by callback registration,
`Connect`, `Publish`, connect events and connection-lost events, `connectedOnce` is the
outcome of the last transport event: true after a connect event, false after a
connection-lost event, and false when no event has been delivered yet. `Connect`,
`Publish` and registration never change it. -/
theorem connectedOnce_follows_last_event {σ : Type} (T : MqttClient σ) (g : Globals)
    (host port clientID : String) (esp debug : Bool) (acts : List (Action σ))
    (c : SAMqttClient σ) (e : List Effect)
    (h : run T (NewSAMqttClient T g host port clientID esp debug).2 acts = some (c, e)) :
    c.connectedOnce = flagAfter false acts :=
  run_connectedOnce T acts _ c e h

/-- An instance of `connectedOnce_follows_last_event`: registration, a connect event, a
publish and a connection-lost event. -/
theorem connectedOnce_follows_last_event_witness :
    run simTransport
        (NewSAMqttClient simTransport { espSupported := true } "broker" "1883" "dev1"
          false false).2
        [Action.register (some { id := 1 }) (some { id := 2 }),
         Action.connectEvent { connected := true, brokerUp := true },
         Action.publish "sdw/a[status]" [1, 2],
         Action.connectionLost { connected := false, brokerUp := false } { msg := "EOF" }]
      = some ({ host := "broker", port := "1883", clientID := "dev1",
                client := { connected := false, brokerUp := false }, report := [],
                connectedOnce := false, connectCallback := some { id := 1 },
                disconnectCallback := some { id := 2 }, debug := false },
              [Effect.callback { id := 1 }, Effect.publish "sdw/a[status]" 0 false [1, 2],
               Effect.callback { id := 2 }]) ∧
    (false : Bool) =
      flagAfter false
        [Action.register (some { id := 1 }) (some { id := 2 }),
         Action.connectEvent ({ connected := true, brokerUp := true } : Sim),
         Action.publish "sdw/a[status]" [1, 2],
         Action.connectionLost { connected := false, brokerUp := false } { msg := "EOF" }] :=
  ⟨by rfl,
   connectedOnce_follows_last_event simTransport { espSupported := true } "broker" "1883"
     "dev1" false false
     [Action.register (some { id := 1 }) (some { id := 2 }),
      Action.connectEvent { connected := true, brokerUp := true },
      Action.publish "sdw/a[status]" [1, 2],
      Action.connectionLost { connected := false, brokerUp := false } { msg := "EOF" }]
     { host := "broker", port := "1883", clientID := "dev1",
       client := { connected := false, brokerUp := false }, report := [],
       connectedOnce := false, connectCallback := some { id := 1 },
       disconnectCallback := some { id := 2 }, debug := false }
     [Effect.callback { id := 1 }, Effect.publish "sdw/a[status]" 0 false [1, 2],
      Effect.callback { id := 2 }] (by rfl)⟩

/-! ## Publish (C2, C3, C4) -/

/-- C2, as stated, fails after a connection-lost event: a connect event was delivered,
then the connection was lost and the transport reports not connected, and `Publish`
does make a connect attempt. -/
theorem publish_after_connectionLost_attempts_connect :
    (run simTransport simClient
        [Action.register (some { id := 1 }) (some { id := 2 }),
         Action.connectEvent { connected := true, brokerUp := true },
         Action.connectionLost { connected := false, brokerUp := false }
           { msg := "EOF" }]).map
      (fun r => (simTransport.IsConnected r.1.client,
                 (r.1.Publish simTransport "sdw/a[value]" [1]).effects))
      = some (false, [Effect.connect]) := by
  rfl

/-- C2, amended: for every topic and payload, if `connectedOnce` is true (a connect event
was delivered and no connection-lost event since) and the transport reports not
connected, `Publish` makes no connect attempt and no transport publish, leaves the
client as it was, and returns nil. -/
theorem publish_connectedOnce_disconnected_noop {σ : Type} (T : MqttClient σ)
    (c : SAMqttClient σ) (topic : String) (payload : Bytes)
    (honce : c.connectedOnce = true) (hdown : T.IsConnected c.client = false) :
    c.Publish T topic payload = { client := c, err := none, effects := [] } := by
  simp [SAMqttClient.Publish, SAMqttClient.connectIfNeverConnected, honce, hdown]

/-- An instance of `publish_connectedOnce_disconnected_noop`: the client after a connect
event and a `Cleanup`. -/
theorem publish_connectedOnce_disconnected_noop_witness :
    (({ simClient with connectedOnce := true } : SAMqttClient Sim).Cleanup
        simTransport).client.connectedOnce = true ∧
    simTransport.IsConnected
      (({ simClient with connectedOnce := true } : SAMqttClient Sim).Cleanup
        simTransport).client.client = false ∧
    (({ simClient with connectedOnce := true } : SAMqttClient Sim).Cleanup
        simTransport).client.Publish simTransport "sdw/a[value]" [1, 2, 3]
      = { client := (({ simClient with connectedOnce := true } : SAMqttClient Sim).Cleanup
            simTransport).client,
          err := none, effects := [] } :=
  ⟨rfl, rfl,
   publish_connectedOnce_disconnected_noop simTransport
     (({ simClient with connectedOnce := true } : SAMqttClient Sim).Cleanup
        simTransport).client "sdw/a[value]" [1, 2, 3] rfl rfl⟩

/-- C3: for every topic and payload, `Publish` on a client that has never connected
(`connectedOnce` false, transport not connected) makes exactly one transport connect
attempt, as its first transport call; and if that attempt fails, leaving the transport
not connected, `Publish` makes no transport publish (the connect attempt is its only
effect) and returns nil. -/
theorem publish_never_connected {σ : Type} (T : MqttClient σ) (c : SAMqttClient σ)
    (topic : String) (payload : Bytes)
    (hnever : c.connectedOnce = false) (hdown : T.IsConnected c.client = false) :
    (c.Publish T topic payload).effects.count Effect.connect = 1 ∧
    (c.Publish T topic payload).effects.head? = some Effect.connect ∧
    ((T.Connect c.client).2 ≠ none → T.IsConnected (T.Connect c.client).1 = false →
      (c.Publish T topic payload).effects = [Effect.connect] ∧
      (c.Publish T topic payload).err = none ∧
      (c.Publish T topic payload).client = { c with client := (T.Connect c.client).1 }) := by
  have h1 : c.connectIfNeverConnected T = ((c.Connect T).client, [Effect.connect]) := by
    simp [SAMqttClient.connectIfNeverConnected, hnever, hdown, Connect_effects]
  have h2 : (c.Connect T).client = { c with client := (T.Connect c.client).1 } := by
    unfold SAMqttClient.Connect
    simp only
    split <;> rfl
  refine ⟨?_, ?_, ?_⟩
  · unfold SAMqttClient.Publish
    simp only [h1]
    split
    · split <;> simp [List.count_cons]
    · simp
  · unfold SAMqttClient.Publish
    simp only [h1]
    split
    · split <;> rfl
    · rfl
  · intro _ hstill
    unfold SAMqttClient.Publish
    simp only [h1, h2, hstill]
    simp

/-- An instance of `publish_never_connected`: a fresh client whose broker is unreachable. -/
theorem publish_never_connected_witness :
    simClient.connectedOnce = false ∧ simTransport.IsConnected simClient.client = false ∧
    (simTransport.Connect simClient.client).2 ≠ none ∧
    simTransport.IsConnected (simTransport.Connect simClient.client).1 = false ∧
    (simClient.Publish simTransport "sdw/a[value]" [7]).effects = [Effect.connect] ∧
    (simClient.Publish simTransport "sdw/a[value]" [7]).err = none :=
  ⟨rfl, rfl, by decide, rfl,
   ((publish_never_connected simTransport simClient "sdw/a[value]" [7] rfl rfl).2.2
      (by decide) rfl).1,
   ((publish_never_connected simTransport simClient "sdw/a[value]" [7] rfl rfl).2.2
      (by decide) rfl).2.1⟩

/-- C4: for every topic and payload, when the transport reports connected at the publish
step (after the first statement of `Publish`), `Publish` makes exactly one transport
publish call, as its last effect, with that topic and payload, qos 0 and retain false;
the error it returns is exactly the error of that one transport publish (nil when the
publish succeeds, the transport's error when it fails). -/
theorem publish_connected {σ : Type} (T : MqttClient σ) (c : SAMqttClient σ)
    (topic : String) (payload : Bytes)
    (hconn : T.IsConnected (c.connectIfNeverConnected T).1.client = true) :
    (c.Publish T topic payload).effects
      = (c.connectIfNeverConnected T).2 ++ [Effect.publish topic 0 false payload] ∧
    (c.Publish T topic payload).effects.filter Effect.isPublish
      = [Effect.publish topic 0 false payload] ∧
    (c.Publish T topic payload).err
      = (T.Publish (c.connectIfNeverConnected T).1.client topic 0 false payload).2 ∧
    (c.Publish T topic payload).client.client
      = (T.Publish (c.connectIfNeverConnected T).1.client topic 0 false payload).1 := by
  have hno : (c.connectIfNeverConnected T).2.filter Effect.isPublish = [] := by
    unfold SAMqttClient.connectIfNeverConnected
    split
    · simp [Connect_effects, Effect.isPublish]
    · rfl
  have heff : (c.Publish T topic payload).effects
      = (c.connectIfNeverConnected T).2 ++ [Effect.publish topic 0 false payload] := by
    unfold SAMqttClient.Publish
    simp only [hconn, if_true]
    split <;> rfl
  refine ⟨heff, ?_, ?_, ?_⟩
  · rw [heff, List.filter_append, hno]
    rfl
  · unfold SAMqttClient.Publish
    simp only [hconn, if_true]
    split
    · next e he => rw [he]
    · next he => rw [he]
  · unfold SAMqttClient.Publish
    simp only [hconn, if_true]
    split <;> rfl

/-- An instance of `publish_connected`: a connected client whose write times out gets
the transport's error back after one publish call. -/
theorem publish_connected_witness :
    (({ simClient with client := { connected := true, brokerUp := false } } :
        SAMqttClient Sim).Publish simTransport "sdw/a[value]" [7]).effects
      = [Effect.publish "sdw/a[value]" 0 false [7]] ∧
    (({ simClient with client := { connected := true, brokerUp := false } } :
        SAMqttClient Sim).Publish simTransport "sdw/a[value]" [7]).err
      = some { msg := "write timeout" } :=
  ⟨(publish_connected simTransport
      ({ simClient with client := { connected := true, brokerUp := false } })
      "sdw/a[value]" [7] rfl).1,
   (publish_connected simTransport
      ({ simClient with client := { connected := true, brokerUp := false } })
      "sdw/a[value]" [7] rfl).2.2.1⟩

/-! ## Lemmas on maps and envelopes -/

theorem GoMap.get_set_same {β : Type} (m : List (String × β)) (k : String) (v : β) :
    GoMap.get (GoMap.set m k v) k = some v := by
  induction m with
  | nil => simp [GoMap.set, GoMap.get]
  | cons p m ih =>
    obtain ⟨k1, v1⟩ := p
    by_cases h : k1 = k
    · simp [GoMap.set, GoMap.get, h]
    · simp [GoMap.set, GoMap.get, h, ih]

theorem GoMap.get_set_other {β : Type} (m : List (String × β)) (k x : String) (v : β)
    (h : k ≠ x) : GoMap.get (GoMap.set m k v) x = GoMap.get m x := by
  induction m with
  | nil => simp [GoMap.set, GoMap.get, h]
  | cons p m ih =>
    obtain ⟨k1, v1⟩ := p
    by_cases h1 : k1 = k
    · subst h1
      simp [GoMap.set, GoMap.get, h]
    · simp only [GoMap.set, h1, if_false, GoMap.get, ih]

theorem appendValue_of_values (svm : SensorValueMessage) (vs : List MSI) (value : MSI)
    (h : GoMap.get svm.Payload "values" = some (Value.msiSlice vs)) :
    appendValue svm value
      = some { svm with
          Payload := GoMap.set svm.Payload "values" (Value.msiSlice (vs ++ [value])) } := by
  simp [appendValue, h]

theorem AddCall.apply_eq (svm : SensorValueMessage) (k : AddCall) :
    k.apply svm = appendValue svm (k.record svm.Esp) := by
  cases k with
  | value f a => rfl
  | valueAttrib f a attrs => rfl
  | valueCreated f a cr =>
    simp only [AddCall.apply, SensorValueMessage.AddValueCreated, AddCall.record]
  | valueAttribCreated f a attrs cr =>
    simp only [AddCall.apply, SensorValueMessage.AddValueAttribCreated, AddCall.record]

theorem applyCalls_values (calls : List AddCall) :
    ∀ (svm : SensorValueMessage) (vs : List MSI),
      GoMap.get svm.Payload "values" = some (Value.msiSlice vs) →
      ∃ svm1, applyCalls svm calls = some svm1 ∧ svm1.Esp = svm.Esp ∧
        svm1.Topic = svm.Topic ∧
        GoMap.get svm1.Payload "values"
          = some (Value.msiSlice (vs ++ calls.map (AddCall.record svm.Esp))) := by
  induction calls with
  | nil =>
    intro svm vs h
    exact ⟨svm, rfl, rfl, rfl, by simpa using h⟩
  | cons k ks ih =>
    intro svm vs h
    have hk := appendValue_of_values svm vs (k.record svm.Esp) h
    obtain ⟨svm1, h1, h2, h3, h4⟩ :=
      ih { svm with
           Payload := GoMap.set svm.Payload "values"
             (Value.msiSlice (vs ++ [k.record svm.Esp])) }
         (vs ++ [k.record svm.Esp]) (GoMap.get_set_same _ _ _)
    refine ⟨svm1, ?_, h2, h3, ?_⟩
    · simp only [applyCalls, AddCall.apply_eq, hk]
      exact h1
    · rw [h4]
      simp

theorem NewSensorValueMessage_values (g : Globals) (id entity datetime : String) :
    GoMap.get (NewSensorValueMessage g id entity datetime).Payload "values"
      = some (Value.msiSlice []) := by
  unfold NewSensorValueMessage
  exact GoMap.get_set_same _ _ _

theorem NewSensorValueMessage_Esp (g : Globals) (id entity datetime : String) :
    (NewSensorValueMessage g id entity datetime).Esp = g.espSupported := rfl

theorem lastValue_of_values (svm : SensorValueMessage) (vs : List MSI) (r : MSI)
    (h : GoMap.get svm.Payload "values" = some (Value.msiSlice (vs ++ [r]))) :
    svm.lastValue = some r := by
  simp [SensorValueMessage.lastValue, SensorValueMessage.values, h]

theorem apply_lastValue (svm : SensorValueMessage) (vs : List MSI) (k : AddCall)
    (h : GoMap.get svm.Payload "values" = some (Value.msiSlice vs)) :
    (k.apply svm).bind SensorValueMessage.lastValue = some (k.record svm.Esp) := by
  rw [AddCall.apply_eq, appendValue_of_values svm vs _ h, Option.some_bind]
  exact lastValue_of_values _ vs _ (GoMap.get_set_same svm.Payload "values" _)

/-! ## Envelopes (C5, C6, C7) -/

/-- C5: for every entity `e` and datetime `t` (and generated id): under dialect A the
envelope has topic `"esp" ++ e` and a payload with a `"messageId"` key, no `"entity"`
key and no `"commandId"` key; under dialect B it has topic `"sdw" ++ e` and a payload
with a `"commandId"` key, no `"messageId"` key, and `"entity"` equal to `e`. In both
dialects `"datetime"` is `t` and `"values"` is the empty sequence. -/
theorem newSensorValueMessage_dialects (id e t : String) :
    ((NewSensorValueMessage { espSupported := true } id e t).Topic = "esp" ++ e ∧
     GoMap.get (NewSensorValueMessage { espSupported := true } id e t).Payload "messageId"
       = some (Value.str id) ∧
     GoMap.has (NewSensorValueMessage { espSupported := true } id e t).Payload "entity"
       = false ∧
     GoMap.has (NewSensorValueMessage { espSupported := true } id e t).Payload "commandId"
       = false ∧
     GoMap.get (NewSensorValueMessage { espSupported := true } id e t).Payload "datetime"
       = some (Value.str t) ∧
     GoMap.get (NewSensorValueMessage { espSupported := true } id e t).Payload "values"
       = some (Value.msiSlice [])) ∧
    ((NewSensorValueMessage { espSupported := false } id e t).Topic = "sdw" ++ e ∧
     GoMap.get (NewSensorValueMessage { espSupported := false } id e t).Payload "commandId"
       = some (Value.str id) ∧
     GoMap.has (NewSensorValueMessage { espSupported := false } id e t).Payload "messageId"
       = false ∧
     GoMap.get (NewSensorValueMessage { espSupported := false } id e t).Payload "entity"
       = some (Value.str e) ∧
     GoMap.get (NewSensorValueMessage { espSupported := false } id e t).Payload "datetime"
       = some (Value.str t) ∧
     GoMap.get (NewSensorValueMessage { espSupported := false } id e t).Payload "values"
       = some (Value.msiSlice [])) := by
  refine ⟨⟨rfl, rfl, rfl, rfl, rfl, rfl⟩, ⟨rfl, rfl, rfl, rfl, rfl, rfl⟩⟩

/-- C6: on an envelope created under dialect A, after any `Add*` calls, the record
appended by `AddValueCreated` or `AddValueAttribCreated` has no `"created"` key; on an
envelope created under dialect B the appended record has `"created"` equal to the
supplied string. (The envelope after the earlier calls always exists.) -/
theorem created_key_by_dialect (id e t : String) (calls : List AddCall) :
    (∃ svm, applyCalls (NewSensorValueMessage { espSupported := true } id e t) calls
        = some svm ∧
      ∀ (f : String) (a : Float64) (attrs : MSI) (cr : String),
        ((svm.AddValueCreated f a cr).bind SensorValueMessage.lastValue).map
          (fun r => GoMap.get r "created") = some none ∧
        ((svm.AddValueAttribCreated f a attrs cr).bind SensorValueMessage.lastValue).map
          (fun r => GoMap.get r "created") = some none) ∧
    (∃ svm, applyCalls (NewSensorValueMessage { espSupported := false } id e t) calls
        = some svm ∧
      ∀ (f : String) (a : Float64) (attrs : MSI) (cr : String),
        ((svm.AddValueCreated f a cr).bind SensorValueMessage.lastValue).map
          (fun r => GoMap.get r "created") = some (some (Value.str cr)) ∧
        ((svm.AddValueAttribCreated f a attrs cr).bind SensorValueMessage.lastValue).map
          (fun r => GoMap.get r "created") = some (some (Value.str cr))) := by
  constructor
  · obtain ⟨svm, h1, h2, _, h4⟩ :=
      applyCalls_values calls _ [] (NewSensorValueMessage_values { espSupported := true } id e t)
    rw [NewSensorValueMessage_Esp] at h2
    refine ⟨svm, h1, fun f a attrs cr => ⟨?_, ?_⟩⟩
    · have ha := apply_lastValue svm _ (AddCall.valueCreated f a cr) h4
      simp only [AddCall.apply] at ha
      rw [ha, h2]
      rfl
    · have ha := apply_lastValue svm _ (AddCall.valueAttribCreated f a attrs cr) h4
      simp only [AddCall.apply] at ha
      rw [ha, h2]
      rfl
  · obtain ⟨svm, h1, h2, _, h4⟩ :=
      applyCalls_values calls _ [] (NewSensorValueMessage_values { espSupported := false } id e t)
    rw [NewSensorValueMessage_Esp] at h2
    refine ⟨svm, h1, fun f a attrs cr => ⟨?_, ?_⟩⟩
    · have ha := apply_lastValue svm _ (AddCall.valueCreated f a cr) h4
      simp only [AddCall.apply] at ha
      rw [ha, h2]
      rfl
    · have ha := apply_lastValue svm _ (AddCall.valueAttribCreated f a attrs cr) h4
      simp only [AddCall.apply] at ha
      rw [ha, h2]
      rfl

/-- C7: for every envelope produced by `NewSensorValueMessage` and every sequence of
`n` calls of the four `Add*` methods, every call succeeds, the resulting `"values"`
entry is a record sequence of length exactly `n`, and its records carry, position by
position, the field and amount of the calls in call order. -/
theorem values_follow_calls (g : Globals) (id e t : String) (calls : List AddCall) :
    ∃ svm vs, applyCalls (NewSensorValueMessage g id e t) calls = some svm ∧
      GoMap.get svm.Payload "values" = some (Value.msiSlice vs) ∧
      vs.length = calls.length ∧
      vs.map (fun r => (GoMap.get r "field", GoMap.get r "amount"))
        = calls.map (fun k => (some (Value.str k.field), some (Value.float k.amount))) := by
  obtain ⟨svm, h1, _, _, h4⟩ :=
    applyCalls_values calls _ [] (NewSensorValueMessage_values g id e t)
  refine ⟨svm, _, h1, h4, by simp, ?_⟩
  simp only [List.nil_append, List.map_map]
  apply List.map_congr_left
  intro k _
  cases k <;> simp only [Function.comp, AddCall.record, AddCall.field, AddCall.amount]
  · rfl
  · rfl
  · split <;> rfl
  · split <;> rfl

/-! ## Published messages (C8, C9, C10) -/

theorem utf8ByteSize_pos_iff (d : String) : d.utf8ByteSize > 0 ↔ d ≠ "" := by
  obtain ⟨l⟩ := d
  rw [String.utf8ByteSize_mk, gt_iff_lt, Nat.pos_iff_ne_zero, Ne, String.utf8Len_eq_zero]
  constructor
  · intro h hd
    exact h (by simpa using congrArg String.data hd)
  · intro h hl
    exact h (by rw [hl])

theorem Publish_effects_of_connected {σ : Type} (T : MqttClient σ) (c : SAMqttClient σ)
    (topic : String) (payload : Bytes) (hconn : T.IsConnected c.client = true) :
    (c.Publish T topic payload).effects = [Effect.publish topic 0 false payload] := by
  have h1 : c.connectIfNeverConnected T = (c, []) := by
    simp [SAMqttClient.connectIfNeverConnected, hconn]
  unfold SAMqttClient.Publish
  simp only [h1, hconn, if_true]
  split <;> rfl

theorem publishStatus_connected {σ : Type} (T : MqttClient σ) (J : Json) (g : Globals)
    (now id : String) (c : SAMqttClient σ) (path status d : String) (b : Bytes)
    (hconn : T.IsConnected c.client = true)
    (hb : J.marshalStringMap (statusPayload g now id status d).1 = .ok b) :
    (c.publishStatus T J g now id path status d).2
      = [Effect.publish ((statusPayload g now id status d).2 ++ path) 0 false b] := by
  unfold SAMqttClient.publishStatus
  simp only [hb]
  exact Publish_effects_of_connected T c _ b hconn

theorem statusPayload_prefix (g : Globals) (now id status d : String) :
    (statusPayload g now id status d).2 = if g.espSupported then "esp" else "sdw" := by
  unfold statusPayload
  cases g.espSupported <;> simp

theorem statusPayload_keys (g : Globals) (now id status d : String) :
    GoMap.get (statusPayload g now id status d).1 "status" = some status ∧
    GoMap.has (statusPayload g now id status d).1 "messageId" = g.espSupported ∧
    GoMap.has (statusPayload g now id status d).1 "commandId" = !g.espSupported := by
  unfold statusPayload
  by_cases hd : d.utf8ByteSize > 0 <;> cases g.espSupported <;>
    simp [hd, GoMap.set, GoMap.get, GoMap.has]

/-- C8: for every entity `e`, on a connected client, `PublishValueMessage` of the
envelope built by `NewSensorValueMessage(e, _)` (after any `Add*` calls) makes exactly
one transport call, a publish to topic `prefix ++ e ++ "[value]"` with prefix `"esp"`
under dialect A and `"sdw"` under dialect B, whose payload is `json()` of the envelope,
which is the marshalled payload map whenever marshalling succeeds. Dialect B with
entity `"/zone1/tempSensor"` gives topic `"sdw/zone1/tempSensor[value]"`. -/
theorem publishValueMessage_topic {σ : Type} (T : MqttClient σ) (J : Json)
    (c : SAMqttClient σ) (g : Globals) (id e t : String) (calls : List AddCall)
    (hconn : T.IsConnected c.client = true) :
    (∃ svm, applyCalls (NewSensorValueMessage g id e t) calls = some svm ∧
      (c.PublishValueMessage T J svm).2
        = [Effect.publish ((if g.espSupported then "esp" else "sdw") ++ e ++ "[value]")
            0 false (svm.json J)] ∧
      ∀ b, J.marshalMSI svm.Payload = .ok b → svm.json J = b) ∧
    (NewSensorValueMessage { espSupported := false } id "/zone1/tempSensor" t).Topic
        ++ "[value]" = "sdw/zone1/tempSensor[value]" := by
  refine ⟨?_, rfl⟩
  obtain ⟨svm, h1, _, h3, _⟩ :=
    applyCalls_values calls _ [] (NewSensorValueMessage_values g id e t)
  refine ⟨svm, h1, ?_, ?_⟩
  · have ht : svm.Topic = (if g.espSupported then "esp" else "sdw") ++ e := by
      rw [h3]
      unfold NewSensorValueMessage
      cases g.espSupported <;> rfl
    unfold SAMqttClient.PublishValueMessage
    simp only [ht]
    exact Publish_effects_of_connected T c _ _ hconn
  · intro b hb
    simp [SensorValueMessage.json, hb]

/-- An instance of `publishValueMessage_topic`: dialect B, entity `"/zone1/tempSensor"`,
one `AddValue` call, on a connected sample client. -/
theorem publishValueMessage_topic_witness :
    simTransport.IsConnected
      ({ simClient with client := { connected := true, brokerUp := true } } :
        SAMqttClient Sim).client = true ∧
    (({ simClient with client := { connected := true, brokerUp := true } } :
        SAMqttClient Sim).PublishValueMessage simTransport simJson
      { Esp := false, Topic := "sdw/zone1/tempSensor",
        Payload := [("entity", Value.str "/zone1/tempSensor"), ("commandId", Value.str "u1"),
          ("datetime", Value.str "2024-01-01T00:00:00.000Z"),
          ("values", Value.msiSlice
            [[("field", Value.str "temperature"),
              ("amount", Value.float { bits := 0x4035800000000000 })]])] }).2
      = [Effect.publish "sdw/zone1/tempSensor[value]" 0 false [6, 9, 8, 6]] ∧
    ((∃ svm, applyCalls
        (NewSensorValueMessage { espSupported := false } "u1" "/zone1/tempSensor"
          "2024-01-01T00:00:00.000Z")
        [AddCall.value "temperature" { bits := 0x4035800000000000 }] = some svm ∧
      (({ simClient with client := { connected := true, brokerUp := true } } :
          SAMqttClient Sim).PublishValueMessage simTransport simJson svm).2
        = [Effect.publish ((if false then "esp" else "sdw") ++ "/zone1/tempSensor" ++ "[value]")
            0 false (svm.json simJson)] ∧
      ∀ b, simJson.marshalMSI svm.Payload = .ok b → svm.json simJson = b) ∧
    (NewSensorValueMessage { espSupported := false } "u1" "/zone1/tempSensor"
        "2024-01-01T00:00:00.000Z").Topic ++ "[value]" = "sdw/zone1/tempSensor[value]") :=
  ⟨rfl, by rfl,
   publishValueMessage_topic simTransport simJson
      ({ simClient with client := { connected := true, brokerUp := true } })
      { espSupported := false } "u1" "/zone1/tempSensor" "2024-01-01T00:00:00.000Z"
      [AddCall.value "temperature" { bits := 0x4035800000000000 }] rfl⟩

/-- C9: for every path `p` and description `d`, on a connected client (the encoder
succeeding on the three payload maps): `PublishRunning(p)`, `PublishNotRunning(p)` and
`PublishError(p, d)` each make exactly one transport call, a publish to topic
`prefix ++ p ++ "[status]"` of the marshalled payload map, and that map has `"status"`
equal to `"RUNNING"`, `"NOT_RUNNING"` and `"ERROR"` respectively; under dialect A the
prefix is `"esp"` and the map has a `"messageId"` key and no `"commandId"` key, under
dialect B the prefix is `"sdw"` and the map has `"commandId"` and no `"messageId"`.
`PublishError("/zoneA", "sensor offline")` under dialect A has topic
`"esp/zoneA[status]"`. -/
theorem status_messages {σ : Type} (T : MqttClient σ) (J : Json) (g : Globals)
    (now id : String) (c : SAMqttClient σ) (p d : String) (b1 b2 b3 : Bytes)
    (hconn : T.IsConnected c.client = true)
    (h1 : J.marshalStringMap (statusPayload g now id "RUNNING" "").1 = .ok b1)
    (h2 : J.marshalStringMap (statusPayload g now id "NOT_RUNNING" "").1 = .ok b2)
    (h3 : J.marshalStringMap (statusPayload g now id "ERROR" d).1 = .ok b3) :
    ((c.PublishRunning T J g now id p).2
        = [Effect.publish ((if g.espSupported then "esp" else "sdw") ++ p ++ "[status]")
            0 false b1] ∧
      GoMap.get (statusPayload g now id "RUNNING" "").1 "status" = some "RUNNING" ∧
      GoMap.has (statusPayload g now id "RUNNING" "").1 "messageId" = g.espSupported ∧
      GoMap.has (statusPayload g now id "RUNNING" "").1 "commandId" = !g.espSupported) ∧
    ((c.PublishNotRunning T J g now id p).2
        = [Effect.publish ((if g.espSupported then "esp" else "sdw") ++ p ++ "[status]")
            0 false b2] ∧
      GoMap.get (statusPayload g now id "NOT_RUNNING" "").1 "status"
        = some "NOT_RUNNING" ∧
      GoMap.has (statusPayload g now id "NOT_RUNNING" "").1 "messageId" = g.espSupported ∧
      GoMap.has (statusPayload g now id "NOT_RUNNING" "").1 "commandId"
        = !g.espSupported) ∧
    ((c.PublishError T J g now id p d).2
        = [Effect.publish ((if g.espSupported then "esp" else "sdw") ++ p ++ "[status]")
            0 false b3] ∧
      GoMap.get (statusPayload g now id "ERROR" d).1 "status" = some "ERROR" ∧
      GoMap.has (statusPayload g now id "ERROR" d).1 "messageId" = g.espSupported ∧
      GoMap.has (statusPayload g now id "ERROR" d).1 "commandId" = !g.espSupported) ∧
    (statusPayload { espSupported := true } now id "ERROR" "sensor offline").2
        ++ ("/zoneA" ++ "[status]") = "esp/zoneA[status]" := by
  refine ⟨⟨?_, statusPayload_keys g now id _ _⟩, ⟨?_, statusPayload_keys g now id _ _⟩,
    ⟨?_, statusPayload_keys g now id _ _⟩, rfl⟩
  · unfold SAMqttClient.PublishRunning
    rw [publishStatus_connected T J g now id c _ _ _ b1 hconn h1, statusPayload_prefix,
      String.append_assoc]
  · unfold SAMqttClient.PublishNotRunning
    rw [publishStatus_connected T J g now id c _ _ _ b2 hconn h2, statusPayload_prefix,
      String.append_assoc]
  · unfold SAMqttClient.PublishError
    rw [publishStatus_connected T J g now id c _ _ _ b3 hconn h3, statusPayload_prefix,
      String.append_assoc]

/-- An instance of `status_messages`: dialect A, path `"/zoneA"`, description
`"sensor offline"`, on a connected sample client with the sample encoder. -/
theorem status_messages_witness :
    simTransport.IsConnected
      ({ simClient with client := { connected := true, brokerUp := true } } :
        SAMqttClient Sim).client = true ∧
    simJson.marshalStringMap
      (statusPayload { espSupported := true } "2024-01-01T00:00:00.000Z" "u1"
        "RUNNING" "").1 = .ok [6, 8, 9] ∧
    simJson.marshalStringMap
      (statusPayload { espSupported := true } "2024-01-01T00:00:00.000Z" "u1"
        "NOT_RUNNING" "").1 = .ok [6, 8, 9] ∧
    simJson.marshalStringMap
      (statusPayload { espSupported := true } "2024-01-01T00:00:00.000Z" "u1"
        "ERROR" "sensor offline").1 = .ok [6, 8, 9, 11] ∧
    (({ simClient with client := { connected := true, brokerUp := true } } :
        SAMqttClient Sim).PublishError simTransport simJson { espSupported := true }
        "2024-01-01T00:00:00.000Z" "u1" "/zoneA" "sensor offline").2
      = [Effect.publish ((if true then "esp" else "sdw") ++ "/zoneA" ++ "[status]")
          0 false [6, 8, 9, 11]] ∧
    GoMap.get (statusPayload { espSupported := true } "2024-01-01T00:00:00.000Z" "u1"
        "ERROR" "sensor offline").1 "status" = some "ERROR" :=
  ⟨rfl, by rfl, by rfl, by rfl,
   (status_messages simTransport simJson { espSupported := true }
      "2024-01-01T00:00:00.000Z" "u1"
      ({ simClient with client := { connected := true, brokerUp := true } })
      "/zoneA" "sensor offline" [6, 8, 9] [6, 8, 9] [6, 8, 9, 11] rfl (by rfl) (by rfl)
      (by rfl)).2.2.1.1,
   (status_messages simTransport simJson { espSupported := true }
      "2024-01-01T00:00:00.000Z" "u1"
      ({ simClient with client := { connected := true, brokerUp := true } })
      "/zoneA" "sensor offline" [6, 8, 9] [6, 8, 9] [6, 8, 9, 11] rfl (by rfl) (by rfl)
      (by rfl)).2.2.1.2.1⟩

/-- C10: for every path, status and description, `publishStatus` hands to `json.Marshal`
the payload map it built and publishes the marshalled bytes (nothing when marshalling
fails); that map has a `"description"` key if and only if the description is non-empty,
and then its value is the description. So the payloads published by `PublishRunning` and
`PublishNotRunning` (which pass the empty description) never have the key, and neither
has that of `PublishError(p, "")`. -/
theorem description_key_iff_nonempty {σ : Type} (T : MqttClient σ) (J : Json)
    (g : Globals) (now id : String) (c : SAMqttClient σ) (p status d : String) :
    (GoMap.has (statusPayload g now id status d).1 "description" = true ↔ d ≠ "") ∧
    GoMap.get (statusPayload g now id status d).1 "description"
      = (if d = "" then none else some d) ∧
    (c.PublishRunning T J g now id p
        = c.publishStatus T J g now id (p ++ "[status]") "RUNNING" "" ∧
      GoMap.has (statusPayload g now id "RUNNING" "").1 "description" = false) ∧
    (c.PublishNotRunning T J g now id p
        = c.publishStatus T J g now id (p ++ "[status]") "NOT_RUNNING" "" ∧
      GoMap.has (statusPayload g now id "NOT_RUNNING" "").1 "description" = false) ∧
    (c.PublishError T J g now id p ""
        = c.publishStatus T J g now id (p ++ "[status]") "ERROR" "" ∧
      GoMap.has (statusPayload g now id "ERROR" "").1 "description" = false) ∧
    c.publishStatus T J g now id p status d
      = (match J.marshalStringMap (statusPayload g now id status d).1 with
         | .error _ => (c, [])
         | .ok b =>
           ((c.Publish T ((statusPayload g now id status d).2 ++ p) b).client,
            (c.Publish T ((statusPayload g now id status d).2 ++ p) b).effects)) ∧
    (∀ b : Bytes, T.IsConnected c.client = true →
      J.marshalStringMap (statusPayload g now id status d).1 = .ok b →
      (c.publishStatus T J g now id p status d).2
        = [Effect.publish ((statusPayload g now id status d).2 ++ p) 0 false b]) ∧
    (∀ b : Bytes, T.IsConnected c.client = true →
      J.marshalStringMap (statusPayload g now id "RUNNING" "").1 = .ok b →
      (c.PublishRunning T J g now id p).2
        = [Effect.publish ((if g.espSupported then "esp" else "sdw") ++ p ++ "[status]")
            0 false b]) ∧
    (∀ b : Bytes, T.IsConnected c.client = true →
      J.marshalStringMap (statusPayload g now id "NOT_RUNNING" "").1 = .ok b →
      (c.PublishNotRunning T J g now id p).2
        = [Effect.publish ((if g.espSupported then "esp" else "sdw") ++ p ++ "[status]")
            0 false b]) ∧
    (∀ b : Bytes, T.IsConnected c.client = true →
      J.marshalStringMap (statusPayload g now id "ERROR" d).1 = .ok b →
      (c.PublishError T J g now id p d).2
        = [Effect.publish ((if g.espSupported then "esp" else "sdw") ++ p ++ "[status]")
            0 false b]) ∧
    (∀ e : Error, J.marshalStringMap (statusPayload g now id status d).1 = .error e →
      c.publishStatus T J g now id p status d = (c, [])) := by
  have hget : ∀ s x : String, GoMap.get (statusPayload g now id s x).1 "description"
      = (if x = "" then none else some x) := by
    intro s x
    unfold statusPayload
    by_cases hx : x = ""
    · subst hx
      cases g.espSupported <;> simp [GoMap.set, GoMap.get, String.utf8ByteSize]
    · have hpos := (utf8ByteSize_pos_iff x).2 hx
      cases g.espSupported <;> simp [hpos, hx, GoMap.get_set_same]
  have hempty : ∀ s : String,
      GoMap.has (statusPayload g now id s "").1 "description" = false := by
    intro s
    simp [GoMap.has, hget]
  have hpub : ∀ (s x : String) (b : Bytes), T.IsConnected c.client = true →
      J.marshalStringMap (statusPayload g now id s x).1 = .ok b →
      (c.publishStatus T J g now id (p ++ "[status]") s x).2
        = [Effect.publish ((if g.espSupported then "esp" else "sdw") ++ p ++ "[status]")
            0 false b] := by
    intro s x b hconn hb
    rw [publishStatus_connected T J g now id c _ _ _ b hconn hb, statusPayload_prefix,
      String.append_assoc]
  refine ⟨?_, hget status d, ⟨rfl, hempty _⟩, ⟨rfl, hempty _⟩, ⟨rfl, hempty _⟩, ?_,
    fun b hconn hb => publishStatus_connected T J g now id c _ _ _ b hconn hb,
    fun b hconn hb => hpub _ _ b hconn hb, fun b hconn hb => hpub _ _ b hconn hb,
    fun b hconn hb => hpub _ _ b hconn hb, ?_⟩
  · rw [GoMap.has, hget]
    by_cases hd : d = "" <;> simp [hd]
  · rfl
  · intro e he
    unfold SAMqttClient.publishStatus
    simp only [he]

/-- An instance of `description_key_iff_nonempty`: on a connected sample client with
the modelled encoder, `PublishError("/zoneA", "")` publishes a payload without a
`"description"` entry and `PublishError("/zoneA", "sensor offline")` one with it. -/
theorem description_key_iff_nonempty_witness :
    simTransport.IsConnected
      ({ simClient with client := { connected := true, brokerUp := true } } :
        SAMqttClient Sim).client = true ∧
    (goJson sampleText).marshalStringMap
        (statusPayload { espSupported := false } "t" "u1" "ERROR" "").1
      = .ok (utf8Bytes "\x7b\"commandId\":\"u1\",\"datetime\":\"t\",\"status\":\"ERROR\"\x7d") ∧
    (goJson sampleText).marshalStringMap
        (statusPayload { espSupported := false } "t" "u1" "ERROR" "sensor offline").1
      = .ok (utf8Bytes "\x7b\"commandId\":\"u1\",\"datetime\":\"t\",\"description\":\"sensor offline\",\"status\":\"ERROR\"\x7d") ∧
    (({ simClient with client := { connected := true, brokerUp := true } } :
        SAMqttClient Sim).PublishError simTransport (goJson sampleText)
        { espSupported := false } "t" "u1" "/zoneA" "").2
      = [Effect.publish ((if false then "esp" else "sdw") ++ "/zoneA" ++ "[status]") 0 false
          (utf8Bytes "\x7b\"commandId\":\"u1\",\"datetime\":\"t\",\"status\":\"ERROR\"\x7d")] ∧
    (({ simClient with client := { connected := true, brokerUp := true } } :
        SAMqttClient Sim).PublishError simTransport (goJson sampleText)
        { espSupported := false } "t" "u1" "/zoneA" "sensor offline").2
      = [Effect.publish ((if false then "esp" else "sdw") ++ "/zoneA" ++ "[status]") 0 false
          (utf8Bytes "\x7b\"commandId\":\"u1\",\"datetime\":\"t\",\"description\":\"sensor offline\",\"status\":\"ERROR\"\x7d")] :=
  ⟨rfl, by rfl, by rfl,
   (description_key_iff_nonempty simTransport (goJson sampleText) { espSupported := false }
      "t" "u1" ({ simClient with client := { connected := true, brokerUp := true } })
      "/zoneA" "ERROR" "").2.2.2.2.2.2.2.2.2.1 _ rfl (by rfl),
   (description_key_iff_nonempty simTransport (goJson sampleText) { espSupported := false }
      "t" "u1" ({ simClient with client := { connected := true, brokerUp := true } })
      "/zoneA" "ERROR" "sensor offline").2.2.2.2.2.2.2.2.2.1 _ rfl (by rfl)⟩

/-! ## Callbacks (C11, C15) -/

theorem Connect_callbacks {σ : Type} (T : MqttClient σ) (c : SAMqttClient σ) :
    (c.Connect T).client.connectCallback = c.connectCallback ∧
    (c.Connect T).client.disconnectCallback = c.disconnectCallback := by
  unfold SAMqttClient.Connect
  simp only
  split <;> exact ⟨rfl, rfl⟩

theorem connectIfNeverConnected_callbacks {σ : Type} (T : MqttClient σ)
    (c : SAMqttClient σ) :
    (c.connectIfNeverConnected T).1.connectCallback = c.connectCallback ∧
    (c.connectIfNeverConnected T).1.disconnectCallback = c.disconnectCallback := by
  unfold SAMqttClient.connectIfNeverConnected
  split
  · exact Connect_callbacks T c
  · exact ⟨rfl, rfl⟩

theorem Publish_callbacks {σ : Type} (T : MqttClient σ) (c : SAMqttClient σ)
    (topic : String) (payload : Bytes) :
    (c.Publish T topic payload).client.connectCallback = c.connectCallback ∧
    (c.Publish T topic payload).client.disconnectCallback = c.disconnectCallback := by
  unfold SAMqttClient.Publish
  simp only
  split
  · split <;> exact connectIfNeverConnected_callbacks T c
  · exact connectIfNeverConnected_callbacks T c

theorem connectIfNeverConnected_no_callback {σ : Type} (T : MqttClient σ)
    (c : SAMqttClient σ) :
    (c.connectIfNeverConnected T).2.filter Effect.isCallback = [] := by
  unfold SAMqttClient.connectIfNeverConnected
  split
  · simp [Connect_effects, Effect.isCallback]
  · rfl

theorem Publish_no_callback {σ : Type} (T : MqttClient σ) (c : SAMqttClient σ)
    (topic : String) (payload : Bytes) :
    (c.Publish T topic payload).effects.filter Effect.isCallback = [] := by
  unfold SAMqttClient.Publish
  simp only
  split
  · split <;>
      simp [List.filter_append, connectIfNeverConnected_no_callback, Effect.isCallback]
  · exact connectIfNeverConnected_no_callback T c

theorem run_callbacks {σ : Type} (T : MqttClient σ) (f g : MqttCallback)
    (acts : List (Action σ)) :
    ∀ c : SAMqttClient σ, c.connectCallback = some f → c.disconnectCallback = some g →
      acts.all (fun a => !a.isRegister) = true →
      ∃ c1 effs, run T c acts = some (c1, effs) ∧
        effs.filter Effect.isCallback = callbackTrace f g acts ∧
        c1.connectCallback = some f ∧ c1.disconnectCallback = some g := by
  induction acts with
  | nil =>
    intro c hf hg _
    exact ⟨c, [], rfl, rfl, hf, hg⟩
  | cons a as ih =>
    intro c hf hg hno
    simp only [List.all_cons, Bool.and_eq_true] at hno
    obtain ⟨ha, has⟩ := hno
    cases a with
    | register f1 g1 => simp [Action.isRegister] at ha
    | connect =>
      obtain ⟨c1, effs, h1, h2, h3, h4⟩ :=
        ih (c.Connect T).client ((Connect_callbacks T c).1.trans hf)
          ((Connect_callbacks T c).2.trans hg) has
      refine ⟨c1, (c.Connect T).effects ++ effs, ?_, ?_, h3, h4⟩
      · simp only [run, step, h1]
      · rw [List.filter_append, h2, Connect_effects]
        rfl
    | publish topic payload =>
      obtain ⟨c1, effs, h1, h2, h3, h4⟩ :=
        ih (c.Publish T topic payload).client ((Publish_callbacks T c topic payload).1.trans hf)
          ((Publish_callbacks T c topic payload).2.trans hg) has
      refine ⟨c1, (c.Publish T topic payload).effects ++ effs, ?_, ?_, h3, h4⟩
      · simp only [run, step, h1]
      · rw [List.filter_append, h2, Publish_no_callback]
        rfl
    | connectEvent s =>
      obtain ⟨c1, effs, h1, h2, h3, h4⟩ :=
        ih { c with client := s, connectedOnce := true } hf hg has
      refine ⟨c1, [Effect.callback f] ++ effs, ?_, ?_, h3, h4⟩
      · rw [hf] at h1
        simp only [run, step, onConnect, hf, h1]
      · rw [List.filter_append, h2]
        rfl
    | connectionLost s err =>
      obtain ⟨c1, effs, h1, h2, h3, h4⟩ :=
        ih { c with client := s, connectedOnce := false } hf hg has
      refine ⟨c1, [Effect.callback g] ++ effs, ?_, ?_, h3, h4⟩
      · rw [hg] at h1
        simp only [run, step, onDisconnect, hg, h1]
      · rw [List.filter_append, h2]
        rfl

/-- C11: with callbacks registered through `RegisterConnectionCallbacks(connect,
disconnect)`, on a client in any state: a transport connect event sets `connectedOnce`
to true and its only effect is one invocation of the connect callback; a transport
connection-lost event has as its only effect one invocation of the disconnect callback;
and over any run of `Connect`, `Publish` and transport events that follows the
registration, the callback invocations are exactly one connect callback per connect
event and one disconnect callback per connection-lost event, in event order. -/
theorem callbacks_follow_events {σ : Type} (T : MqttClient σ) (c : SAMqttClient σ)
    (f g : MqttCallback) (s : σ) (err : Error) (acts : List (Action σ))
    (hno : acts.all (fun a => !a.isRegister) = true) :
    step T (c.RegisterConnectionCallbacks (some f) (some g)) (Action.connectEvent s)
      = some ({ c with client := s, connectedOnce := true, connectCallback := some f,
                       disconnectCallback := some g }, [Effect.callback f]) ∧
    step T (c.RegisterConnectionCallbacks (some f) (some g)) (Action.connectionLost s err)
      = some ({ c with client := s, connectedOnce := false, connectCallback := some f,
                       disconnectCallback := some g }, [Effect.callback g]) ∧
    ∃ c1 effs, run T (c.RegisterConnectionCallbacks (some f) (some g)) acts
        = some (c1, effs) ∧
      effs.filter Effect.isCallback = callbackTrace f g acts := by
  refine ⟨rfl, rfl, ?_⟩
  obtain ⟨c1, effs, h1, h2, _, _⟩ :=
    run_callbacks T f g acts (c.RegisterConnectionCallbacks (some f) (some g)) rfl rfl hno
  exact ⟨c1, effs, h1, h2⟩

/-- An instance of `callbacks_follow_events`: a first connect, a publish, a connection
loss and a reconnect on the sample client. -/
theorem callbacks_follow_events_witness :
    ([Action.connectEvent ({ connected := true, brokerUp := true } : Sim),
      Action.publish "sdw/a[status]" [1],
      Action.connectionLost { connected := false, brokerUp := false } { msg := "EOF" },
      Action.connectEvent { connected := true, brokerUp := true }].all
        (fun a => !a.isRegister) = true) ∧
    (run simTransport
        (simClient.RegisterConnectionCallbacks (some { id := 1 }) (some { id := 2 }))
        [Action.connectEvent { connected := true, brokerUp := true },
         Action.publish "sdw/a[status]" [1],
         Action.connectionLost { connected := false, brokerUp := false } { msg := "EOF" },
         Action.connectEvent { connected := true, brokerUp := true }]).map (fun r => r.2)
      = some [Effect.callback { id := 1 }, Effect.publish "sdw/a[status]" 0 false [1],
              Effect.callback { id := 2 }, Effect.callback { id := 1 }] ∧
    ∃ c1 effs, run simTransport
        (simClient.RegisterConnectionCallbacks (some { id := 1 }) (some { id := 2 }))
        [Action.connectEvent { connected := true, brokerUp := true },
         Action.publish "sdw/a[status]" [1],
         Action.connectionLost { connected := false, brokerUp := false } { msg := "EOF" },
         Action.connectEvent { connected := true, brokerUp := true }] = some (c1, effs) ∧
      effs.filter Effect.isCallback
        = callbackTrace { id := 1 } { id := 2 }
            [Action.connectEvent ({ connected := true, brokerUp := true } : Sim),
             Action.publish "sdw/a[status]" [1],
             Action.connectionLost { connected := false, brokerUp := false } { msg := "EOF" },
             Action.connectEvent { connected := true, brokerUp := true }] :=
  ⟨by rfl, by rfl,
   (callbacks_follow_events simTransport simClient { id := 1 } { id := 2 }
      { connected := true, brokerUp := true } { msg := "EOF" }
      [Action.connectEvent { connected := true, brokerUp := true },
       Action.publish "sdw/a[status]" [1],
       Action.connectionLost { connected := false, brokerUp := false } { msg := "EOF" },
       Action.connectEvent { connected := true, brokerUp := true }] (by rfl)).2.2⟩

/-- C15 fails on the code: after `NewSAMqttClient` and before any
`RegisterConnectionCallbacks` both callback slots are nil, and a transport connect event
or connection-lost event panics in its handler at the call of the nil callback; so does
the connect event that follows the connect made by a first `Publish`. -/
theorem events_before_registration_panic {σ : Type} (T : MqttClient σ) (g : Globals)
    (host port clientID : String) (esp debug : Bool) (s : σ) (err : Error)
    (topic : String) (payload : Bytes) :
    (NewSAMqttClient T g host port clientID esp debug).2.connectCallback = none ∧
    (NewSAMqttClient T g host port clientID esp debug).2.disconnectCallback = none ∧
    step T (NewSAMqttClient T g host port clientID esp debug).2 (Action.connectEvent s)
      = none ∧
    step T (NewSAMqttClient T g host port clientID esp debug).2
      (Action.connectionLost s err) = none ∧
    run T (NewSAMqttClient T g host port clientID esp debug).2
      [Action.publish topic payload, Action.connectEvent s] = none := by
  refine ⟨rfl, rfl, rfl, rfl, ?_⟩
  have h := (Publish_callbacks T (NewSAMqttClient T g host port clientID esp debug).2
    topic payload).1
  have h0 : (NewSAMqttClient T g host port clientID esp debug).2.connectCallback = none := rfl
  rw [h0] at h
  simp only [run, step, onConnect, h]

/-! ## The dialect (C12) -/

/-- C12, as stated, fails: after a client is constructed with `esp = true`, constructing
another client with `esp = false` changes the dialect that `NewSensorValueMessage` and
the status publishers read, from A (`"esp"`) to B (`"sdw"`). -/
theorem dialect_changed_by_second_client :
    (NewSAMqttClient simTransport { espSupported := false } "broker" "1883" "dev1"
        true false).1.espSupported = true ∧
    (NewSensorValueMessage
        (NewSAMqttClient simTransport { espSupported := false } "broker" "1883" "dev1"
          true false).1 "u1" "/a" "t").Topic = "esp/a" ∧
    (NewSAMqttClient simTransport
        (NewSAMqttClient simTransport { espSupported := false } "broker" "1883" "dev1"
          true false).1 "broker" "1883" "dev2" false false).1.espSupported = false ∧
    (NewSensorValueMessage
        (NewSAMqttClient simTransport
          (NewSAMqttClient simTransport { espSupported := false } "broker" "1883" "dev1"
            true false).1 "broker" "1883" "dev2" false false).1 "u1" "/a" "t").Topic
      = "sdw/a" ∧
    (statusPayload
        (NewSAMqttClient simTransport
          (NewSAMqttClient simTransport { espSupported := false } "broker" "1883" "dev1"
            true false).1 "broker" "1883" "dev2" false false).1 "t" "u1" "RUNNING" "").2
      = "sdw" := by
  refine ⟨rfl, ?_, rfl, ?_, ?_⟩ <;> decide

/-- C12, amended: every construction of a connection manager sets the dialect to its
`esp` flag, whatever was set before, and `NewSensorValueMessage` and the status
publishers called afterwards read that value: the dialect is the `esp` flag of the most
recently constructed client. -/
theorem dialect_is_last_constructed {σ : Type} (T : MqttClient σ) (g : Globals)
    (host port clientID : String) (esp debug : Bool) (now id e t status d : String) :
    (NewSAMqttClient T g host port clientID esp debug).1.espSupported = esp ∧
    (NewSensorValueMessage (NewSAMqttClient T g host port clientID esp debug).1 id e t).Esp
      = esp ∧
    (NewSensorValueMessage (NewSAMqttClient T g host port clientID esp debug).1 id e t).Topic
      = (if esp then "esp" else "sdw") ++ e ∧
    (statusPayload (NewSAMqttClient T g host port clientID esp debug).1 now id status d).2
      = (if esp then "esp" else "sdw") := by
  refine ⟨rfl, rfl, ?_, ?_⟩
  · cases esp <;> rfl
  · rw [ statusPayload_prefix]
    rfl

/-! ## Frame of the Add* methods and serialization (C17, C14) -/

theorem GoMap.set_keys {β : Type} (m : List (String × β)) (k : String) (v0 v : β)
    (h : GoMap.get m k = some v0) :
    (GoMap.set m k v).map Prod.fst = m.map Prod.fst := by
  induction m with
  | nil => simp [GoMap.get] at h
  | cons p m ih =>
    obtain ⟨k1, v1⟩ := p
    by_cases h1 : k1 = k
    · simp [GoMap.set, h1]
    · simp only [GoMap.get, h1, if_false] at h
      simp [GoMap.set, h1, ih h]

/-- C17: every `Add*` call that returns changes only the `"values"` entry of the
payload: `Esp` and `Topic` are unchanged, the payload has the same keys in the same
places, every key other than `"values"` (the correlation id, `"entity"`, `"datetime"`)
has the value it had, and the `"values"` entry is the old record sequence with the one
new record appended at the end. -/
theorem add_changes_only_values (svm svm1 : SensorValueMessage) (k : AddCall)
    (h : k.apply svm = some svm1) :
    svm1.Esp = svm.Esp ∧ svm1.Topic = svm.Topic ∧
    svm1.Payload.map Prod.fst = svm.Payload.map Prod.fst ∧
    (∀ x : String, x ≠ "values" → GoMap.get svm1.Payload x = GoMap.get svm.Payload x) ∧
    ∃ vs, GoMap.get svm.Payload "values" = some (Value.msiSlice vs) ∧
      GoMap.get svm1.Payload "values"
        = some (Value.msiSlice (vs ++ [k.record svm.Esp])) := by
  rw [AddCall.apply_eq] at h
  unfold appendValue at h
  split at h
  · next vs hvs =>
    simp only [Option.some.injEq] at h
    subst h
    refine ⟨rfl, rfl, GoMap.set_keys _ _ _ _ hvs, ?_, vs, hvs, GoMap.get_set_same _ _ _⟩
    intro x hx
    exact GoMap.get_set_other _ _ _ _ (fun hv => hx hv.symm)
  · exact absurd h (by simp)

/-- An instance of `add_changes_only_values`: `AddValueCreated` on a fresh dialect B
envelope. -/
theorem add_changes_only_values_witness :
    (AddCall.valueCreated "temperature" { bits := 0x4035800000000000 } "c1").apply
        (NewSensorValueMessage { espSupported := false } "u1" "/a" "t")
      = some
          { Esp := false, Topic := "sdw/a",
            Payload := [("entity", Value.str "/a"), ("commandId", Value.str "u1"),
              ("datetime", Value.str "t"),
              ("values", Value.msiSlice
                [[("field", Value.str "temperature"),
                  ("amount", Value.float { bits := 0x4035800000000000 }),
                  ("created", Value.str "c1")]])] } ∧
    GoMap.get
        ([("entity", Value.str "/a"), ("commandId", Value.str "u1"),
          ("datetime", Value.str "t"),
          ("values", Value.msiSlice
            [[("field", Value.str "temperature"),
              ("amount", Value.float { bits := 0x4035800000000000 }),
              ("created", Value.str "c1")]])] : MSI) "entity"
      = GoMap.get (NewSensorValueMessage { espSupported := false } "u1" "/a" "t").Payload
          "entity" :=
  ⟨by rfl,
   (add_changes_only_values (NewSensorValueMessage { espSupported := false } "u1" "/a" "t")
      { Esp := false, Topic := "sdw/a",
        Payload := [("entity", Value.str "/a"), ("commandId", Value.str "u1"),
          ("datetime", Value.str "t"),
          ("values", Value.msiSlice
            [[("field", Value.str "temperature"),
              ("amount", Value.float { bits := 0x4035800000000000 }),
              ("created", Value.str "c1")]])] }
      (AddCall.valueCreated "temperature" { bits := 0x4035800000000000 } "c1")
      (by rfl)).2.2.2.1 "entity" (by decide)⟩

/-! ## Membership tests (C18) -/

theorem linearContains_iff (a : List String) (x : String) :
    linearContains a x = true ↔ x ∈ a := by
  induction a with
  | nil => simp [linearContains]
  | cons n a ih =>
    by_cases h : x = n
    · simp [linearContains, h]
    · simp [linearContains, h, ih]

theorem searchLoop_fuel (f : Nat → Option Bool) :
    ∀ (fuel1 fuel2 i j : Nat), j - i ≤ fuel1 → j - i ≤ fuel2 →
      searchLoop f fuel1 i j = searchLoop f fuel2 i j := by
  intro fuel1
  induction fuel1 with
  | zero =>
    intro fuel2 i j h1 _
    cases fuel2 with
    | zero => rfl
    | succ m =>
      have hij : ¬ i < j := by omega
      simp [searchLoop, hij]
  | succ m ih =>
    intro fuel2 i j h1 h2
    cases fuel2 with
    | zero =>
      have hij : ¬ i < j := by omega
      simp [searchLoop, hij]
    | succ k =>
      by_cases hij : i < j
      · simp only [searchLoop, hij, if_true]
        cases f ((i + j) / 2) with
        | none => rfl
        | some b =>
          cases b with
          | false => exact ih k _ _ (by omega) (by omega)
          | true => exact ih k _ _ (by omega) (by omega)
      · simp [searchLoop, hij]

theorem searchLoop_isSome (f : Nat → Option Bool) (n : Nat)
    (hf : ∀ h, h < n → (f h).isSome = true) :
    ∀ (fuel i j : Nat), j ≤ n → (searchLoop f fuel i j).isSome = true := by
  intro fuel
  induction fuel with
  | zero => intro i j _; rfl
  | succ m ih =>
    intro i j hj
    by_cases hij : i < j
    · simp only [searchLoop, hij, if_true]
      have hh := hf ((i + j) / 2) (by omega)
      cases hfh : f ((i + j) / 2) with
      | none => rw [hfh] at hh; simp at hh
      | some b =>
        cases b with
        | false => exact ih _ _ hj
        | true => exact ih _ _ (by omega)
    · simp [searchLoop, hij]

theorem searchLoop_least (f : Nat → Option Bool) (p : Nat → Bool) (n : Nat)
    (hf : ∀ h, h < n → f h = some (p h))
    (hmono : ∀ h k, h ≤ k → k < n → p h = true → p k = true) :
    ∀ (fuel i j : Nat), i ≤ j → j ≤ n → j - i ≤ fuel →
      (∀ k, k < i → p k = false) → (∀ k, j ≤ k → k < n → p k = true) →
      ∃ r, searchLoop f fuel i j = some r ∧ r ≤ n ∧
        (∀ k, k < r → p k = false) ∧ (∀ k, r ≤ k → k < n → p k = true) := by
  intro fuel
  induction fuel with
  | zero =>
    intro i j hij hjn hfuel hlo hhi
    have : i = j := by omega
    subst this
    exact ⟨i, rfl, hjn, hlo, hhi⟩
  | succ m ih =>
    intro i j hij hjn hfuel hlo hhi
    by_cases hlt : i < j
    · have hh : (i + j) / 2 < n := by omega
      simp only [searchLoop, hlt, if_true, hf _ hh]
      cases hp : p ((i + j) / 2) with
      | false =>
        refine ih _ _ (by omega) hjn (by omega) ?_ hhi
        intro k hk
        cases hpk : p k with
        | false => rfl
        | true =>
          have := hmono k ((i + j) / 2) (by omega) hh hpk
          rw [hp] at this
          exact absurd this (by simp)
      | true =>
        refine ih _ _ (by omega) (by omega) (by omega) hlo ?_
        intro k hk hkn
        exact hmono _ k hk hkn hp
    · have : i = j := by omega
      subst this
      exact ⟨i, by simp [searchLoop], hjn, hlo, hhi⟩

theorem Char_toNat_inj (c d : Char) (h : c.toNat = d.toNat) : c = d := by
  apply Char.ext
  apply UInt32.ext
  exact h

theorem strLt_irrefl (l : List Char) : strLt l l = false := by
  induction l with
  | nil => rfl
  | cons c cs ih => simp [strLt, ih]

theorem strLt_antisymm : ∀ (u v : List Char), strLt u v = false → strLt v u = false → u = v
  | [], [], _, _ => rfl
  | [], _ :: _, h, _ => by simp [strLt] at h
  | _ :: _, [], _, h => by simp [strLt] at h
  | c :: cs, d :: ds, h1, h2 => by
    simp only [strLt] at h1 h2
    by_cases hcd : c.toNat < d.toNat
    · simp [hcd] at h1
    · by_cases hdc : d.toNat < c.toNat
      · simp [hdc] at h2
      · simp only [hcd, hdc, if_false] at h1 h2
        have := Char_toNat_inj c d (by omega)
        subst this
        rw [strLt_antisymm cs ds h1 h2]

theorem strLt_cotrans : ∀ (w v u : List Char), strLt w u = true →
    strLt w v = true ∨ strLt v u = true
  | _, _, [], h => by cases ‹List Char› <;> simp [strLt] at h
  | [], [], _ :: _, _ => Or.inr rfl
  | [], _ :: _, _ :: _, _ => Or.inl rfl
  | _ :: _, [], _ :: _, _ => Or.inr rfl
  | c :: cs, e :: es, d :: ds, h => by
    simp only [strLt] at h ⊢
    by_cases hcd : c.toNat < d.toNat
    · by_cases hce : c.toNat < e.toNat
      · simp [hce]
      · right
        have : e.toNat < d.toNat := by omega
        simp [this]
    · by_cases hdc : d.toNat < c.toNat
      · simp [hcd, hdc] at h
      · simp only [hcd, hdc, if_false] at h
        by_cases hce : c.toNat < e.toNat
        · simp [hce]
        · by_cases hec : e.toNat < c.toNat
          · right
            have : e.toNat < d.toNat := by omega
            simp [this]
          · have h1 : ¬ e.toNat < d.toNat := by omega
            have h2 : ¬ d.toNat < e.toNat := by omega
            simp only [hce, hec, h1, h2, if_false]
            exact strLt_cotrans cs es ds h

theorem strLe_refl (x : String) : strLe x x = true := by
  simp [strLe, strLt_irrefl]

theorem strLe_trans (x y z : String) (h1 : strLe x y = true) (h2 : strLe y z = true) :
    strLe x z = true := by
  simp only [strLe, Bool.not_eq_true', ← Bool.not_eq_true] at h1 h2 ⊢
  intro h
  rcases strLt_cotrans z.data y.data x.data h with h3 | h3
  · exact h2 h3
  · exact h1 h3

theorem strLe_antisymm (x y : String) (h1 : strLe x y = true) (h2 : strLe y x = true) :
    x = y := by
  simp only [strLe, Bool.not_eq_true'] at h1 h2
  exact String.ext (strLt_antisymm x.data y.data h2 h1)

theorem sorted_getElem?_le (a : List String)
    (hs : a.Pairwise (fun u v => strLe u v = true)) (i j : Nat)
    (u v : String) (hij : i ≤ j) (hu : a[i]? = some u) (hv : a[j]? = some v) :
    strLe u v = true := by
  obtain ⟨hi, rfl⟩ := List.getElem?_eq_some.1 hu
  obtain ⟨hj, rfl⟩ := List.getElem?_eq_some.1 hv
  rcases Nat.lt_or_eq_of_le hij with h | h
  · exact List.pairwise_iff_getElem.1 hs i j hi hj h
  · subst h
    exact strLe_refl _

/-- C18: for every list `a` and string `x`, `binaryContains(a, x)` returns without
indexing outside `a` (the empty list included) and `linearContains(a, x)` is true
exactly when `x` is an element of `a`; and when `a` is sorted in ascending order,
`binaryContains(a, x)` returns the value of `linearContains(a, x)`. -/
theorem binaryContains_eq_linearContains (a : List String) (x : String) :
    (binaryContains a x).isSome = true ∧
    (linearContains a x = true ↔ x ∈ a) ∧
    (a.Pairwise (fun u v => strLe u v = true) →
      binaryContains a x = some (linearContains a x)) := by
  have hf : ∀ h, h < a.length →
      (fun i => (a[i]?).map (fun n => strLe x n)) h
        = some ((fun k => match a[k]? with
                          | some n => strLe x n
                          | none => true) h) := by
    intro h hh
    simp [List.getElem?_eq_getElem hh]
  refine ⟨?_, linearContains_iff a x, ?_⟩
  · have hs := searchLoop_isSome (fun i => (a[i]?).map (fun n => strLe x n)) a.length
      (fun h hh => by rw [hf h hh]; rfl) a.length 0 a.length (le_refl _)
    unfold binaryContains Search
    cases hr : searchLoop (fun i => (a[i]?).map (fun n => strLe x n)) a.length 0
        a.length with
    | none => rw [hr] at hs; simp at hs
    | some r =>
      simp only
      by_cases hrn : r < a.length
      · simp only [hrn, if_true, List.getElem?_eq_getElem hrn]
        split <;> rfl
      · simp [hrn]
  · intro hsorted
    obtain ⟨r, hr, hrn, hlo, hhi⟩ :=
      searchLoop_least (fun i => (a[i]?).map (fun n => strLe x n))
        (fun k => match a[k]? with
                  | some n => strLe x n
                  | none => true) a.length hf
        (by
          intro h k hhk hk hph
          have hh : h < a.length := by omega
          simp only [List.getElem?_eq_getElem hh, List.getElem?_eq_getElem hk] at hph ⊢
          exact strLe_trans _ _ _ hph
            (sorted_getElem?_le a hsorted h k _ _ hhk (List.getElem?_eq_getElem hh)
              (List.getElem?_eq_getElem hk)))
        a.length 0 a.length (Nat.zero_le _) (le_refl _) (by omega)
        (by intro k hk; omega) (by intro k hk hkn; omega)
    have hmem : ∀ k, a[k]? = some x → r ≤ k := by
      intro k hk
      by_contra hlt
      have := hlo k (by omega)
      simp [hk, strLe_refl] at this
    unfold binaryContains Search
    simp only [hr]
    by_cases hrlt : r < a.length
    · simp only [hrlt, if_true, List.getElem?_eq_getElem hrlt]
      by_cases hx : a[r] = x
      · have : linearContains a x = true :=
          (linearContains_iff a x).2 (hx ▸ List.getElem_mem hrlt)
        simp [hx, this]
      · have hnot : linearContains a x = false := by
          cases hl : linearContains a x with
          | false => rfl
          | true =>
            exfalso
            obtain ⟨k, hk⟩ := List.mem_iff_getElem?.1 ((linearContains_iff a x).1 hl)
            have hrk := hmem k hk
            have h1 : strLe a[r] x = true :=
              sorted_getElem?_le a hsorted r k _ _ hrk (List.getElem?_eq_getElem hrlt) hk
            have h2 := hhi r (le_refl _) hrlt
            simp only [List.getElem?_eq_getElem hrlt] at h2
            exact hx (strLe_antisymm _ _ h1 h2)
        simp [hx, hnot]
    · have hnot : linearContains a x = false := by
        cases hl : linearContains a x with
        | false => rfl
        | true =>
          exfalso
          obtain ⟨k, hk⟩ := List.mem_iff_getElem?.1 ((linearContains_iff a x).1 hl)
          have hrk := hmem k hk
          obtain ⟨hklt, _⟩ := List.getElem?_eq_some.1 hk
          omega
      simp [hrlt, hnot]

/-- An instance of `binaryContains_eq_linearContains`: a sorted list of three paths,
with a member and with a non-member. -/
theorem binaryContains_eq_linearContains_witness :
    List.Pairwise (fun u v => strLe u v = true) ["/a/b/c", "/b/c/d", "/c"] ∧
    binaryContains ["/a/b/c", "/b/c/d", "/c"] "/b/c/d" = some true ∧
    binaryContains ["/a/b/c", "/b/c/d", "/c"] "/b" = some false ∧
    binaryContains ["/a/b/c", "/b/c/d", "/c"] "/b/c/d"
      = some (linearContains ["/a/b/c", "/b/c/d", "/c"] "/b/c/d") :=
  ⟨by decide, by decide, by decide,
   (binaryContains_eq_linearContains ["/a/b/c", "/b/c/d", "/c"] "/b/c/d").2.2 (by decide)⟩

/-! ## Serialized payloads (C13, C16) -/

/-- C13, as stated, fails: for the dialect B envelope with entity `"/zone1/tempSensor"`,
datetime `"2024-01-01T00:00:00.000Z"` and `AddValue("temperature", 21.5)`, the
serialized payload has the one-element values array
`[{"amount":21.5,"field":"temperature"}]`, and the text
`"field":"temperature","amount":21.5` does not occur in it. -/
theorem field_then_amount_absent :
    ((NewSensorValueMessage { espSupported := false } "u1" "/zone1/tempSensor"
        "2024-01-01T00:00:00.000Z").AddValue "temperature"
        { bits := 0x4035800000000000 }).map
      (fun svm => encodeValue sampleText (Value.msi svm.Payload))
      = some (.ok "\x7b\"commandId\":\"u1\",\"datetime\":\"2024-01-01T00:00:00.000Z\",\"entity\":\"/zone1/tempSensor\",\"values\":[\x7b\"amount\":21.5,\"field\":\"temperature\"\x7d]\x7d") ∧
    ((NewSensorValueMessage { espSupported := false } "u1" "/zone1/tempSensor"
        "2024-01-01T00:00:00.000Z").AddValue "temperature"
        { bits := 0x4035800000000000 }).map
      (fun svm => svm.json (goJson sampleText))
      = some (utf8Bytes "\x7b\"commandId\":\"u1\",\"datetime\":\"2024-01-01T00:00:00.000Z\",\"entity\":\"/zone1/tempSensor\",\"values\":[\x7b\"amount\":21.5,\"field\":\"temperature\"\x7d]\x7d") ∧
    containsText
      "\x7b\"commandId\":\"u1\",\"datetime\":\"2024-01-01T00:00:00.000Z\",\"entity\":\"/zone1/tempSensor\",\"values\":[\x7b\"amount\":21.5,\"field\":\"temperature\"\x7d]\x7d".data
      "\"field\":\"temperature\",\"amount\":21.5".data = false := by
  refine ⟨by rfl, by rfl, by decide⟩

theorem GoMap.get_append_last {β : Type} (base : List (String × β)) (k : String) (x : β)
    (h : ∀ p ∈ base, p.1 ≠ k) : GoMap.get (base ++ [(k, x)]) k = some x := by
  induction base with
  | nil => simp [GoMap.get]
  | cons p base ih =>
    obtain ⟨k1, v1⟩ := p
    have h1 : k1 ≠ k := h (k1, v1) (List.mem_cons_self _ _)
    simp only [List.cons_append, GoMap.get, h1, if_false]
    exact ih (fun q hq => h q (List.mem_cons_of_mem _ hq))

theorem GoMap.set_append_last {β : Type} (base : List (String × β)) (k : String) (x y : β)
    (h : ∀ p ∈ base, p.1 ≠ k) :
    GoMap.set (base ++ [(k, x)]) k y = base ++ [(k, y)] := by
  induction base with
  | nil => simp [GoMap.set]
  | cons p base ih =>
    obtain ⟨k1, v1⟩ := p
    have h1 : k1 ≠ k := h (k1, v1) (List.mem_cons_self _ _)
    simp only [List.cons_append, GoMap.set, h1, if_false]
    exact congrArg _ (ih (fun q hq => h q (List.mem_cons_of_mem _ hq)))

theorem applyCalls_payload (calls : List AddCall) :
    ∀ (svm : SensorValueMessage) (base : MSI) (vs : List MSI),
      svm.Payload = base ++ [("values", Value.msiSlice vs)] →
      (∀ p ∈ base, p.1 ≠ "values") →
      ∃ svm1, applyCalls svm calls = some svm1 ∧ svm1.Esp = svm.Esp ∧
        svm1.Payload
          = base ++ [("values", Value.msiSlice (vs ++ calls.map (AddCall.record svm.Esp)))] := by
  induction calls with
  | nil =>
    intro svm base vs hp _
    exact ⟨svm, rfl, rfl, by simpa using hp⟩
  | cons k ks ih =>
    intro svm base vs hp hb
    have hget : GoMap.get svm.Payload "values" = some (Value.msiSlice vs) := by
      rw [hp]
      exact GoMap.get_append_last base _ _ hb
    have hk := appendValue_of_values svm vs (k.record svm.Esp) hget
    obtain ⟨svm1, h1, h2, h3⟩ :=
      ih { svm with
           Payload := GoMap.set svm.Payload "values"
             (Value.msiSlice (vs ++ [k.record svm.Esp])) }
         base (vs ++ [k.record svm.Esp])
         (by rw [hp]; exact GoMap.set_append_last base _ _ _ hb) hb
    refine ⟨svm1, ?_, h2, ?_⟩
    · simp only [applyCalls, AddCall.apply_eq, hk]
      exact h1
    · rw [h3]
      simp

theorem encodeMaps_ok (E : TextEncoding) :
    ∀ (l : List MSI) (ts : List String), encodeMaps E l = .ok ts →
      ts.length = l.length ∧
      ∀ (i : Nat) (m : MSI), l[i]? = some m →
        ∃ es, encodeEntries E m = .ok es ∧ ts[i]? = some (objectText E es) := by
  intro l
  induction l with
  | nil =>
    intro ts h
    simp only [encodeMaps, Except.ok.injEq] at h
    subst h
    exact ⟨rfl, fun i m hm => by simp at hm⟩
  | cons m0 l ih =>
    intro ts h
    simp only [encodeMaps] at h
    cases h0 : encodeEntries E m0 with
    | error err => rw [h0] at h; simp at h
    | ok es0 =>
      rw [h0] at h
      simp only at h
      cases h1 : encodeMaps E l with
      | error err => rw [h1] at h; simp at h
      | ok ts1 =>
        rw [h1] at h
        simp only [Except.ok.injEq] at h
        subst h
        obtain ⟨hlen, hrec⟩ := ih ts1 h1
        refine ⟨by simp [hlen], ?_⟩
        intro i m hm
        cases i with
        | zero =>
          simp only [List.getElem?_cons_zero, Option.some.injEq] at hm
          subst hm
          exact ⟨es0, h0, by simp⟩
        | succ i =>
          simp only [List.getElem?_cons_succ] at hm ⊢
          exact hrec i m hm

theorem encodeMaps_error (E : TextEncoding) :
    ∀ (l : List MSI) (m : MSI) (err : Error), m ∈ l → encodeEntries E m = .error err →
      ∃ err1, encodeMaps E l = .error err1 := by
  intro l
  induction l with
  | nil => intro m err hm; simp at hm
  | cons m0 l ih =>
    intro m err hm he
    simp only [encodeMaps]
    cases h0 : encodeEntries E m0 with
    | error err0 => exact ⟨err0, rfl⟩
    | ok es0 =>
      simp only
      rcases List.mem_cons.1 hm with h | h
      · subst h
        rw [he] at h0
        simp at h0
      · obtain ⟨err1, h1⟩ := ih m err h he
        rw [h1]
        exact ⟨err1, rfl⟩

theorem startsWith_append (pat post : List Char) : startsWith (pat ++ post) pat = true := by
  induction pat with
  | nil => cases post <;> rfl
  | cons c cs ih => simp [startsWith, ih]

theorem containsText_append (pre pat post : List Char) :
    containsText (pre ++ (pat ++ post)) pat = true := by
  induction pre with
  | nil =>
    cases hp : pat ++ post with
    | nil =>
      have : pat = [] := (List.append_eq_nil.1 hp).1
      subst this
      rfl
    | cons c cs =>
      rw [List.nil_append, containsText, ← hp, startsWith_append]
      rfl
  | cons c cs ih =>
    rw [List.cons_append, containsText, ih]
    split <;> rfl

theorem containsText_of_eq (text pre r post : String) (h : text = pre ++ r ++ post) :
    containsText text.data r.data = true := by
  subst h
  simp only [String.data_append, List.append_assoc]
  exact containsText_append _ _ _

theorem joinComma_getElem : ∀ (ts : List String) (i : Nat) (r : String), ts[i]? = some r →
    ∃ pre post, joinComma ts = pre ++ r ++ post
  | [], i, r, h => by simp at h
  | [t0], 0, r, h => by
    simp only [List.getElem?_cons_zero, Option.some.injEq] at h
    subst h
    exact ⟨"", "", by simp [joinComma]⟩
  | [t0], i + 1, r, h => by simp at h
  | t0 :: t1 :: ts, 0, r, h => by
    simp only [List.getElem?_cons_zero, Option.some.injEq] at h
    subst h
    exact ⟨"", "," ++ joinComma (t1 :: ts), by simp [joinComma, String.append_assoc]⟩
  | t0 :: t1 :: ts, i + 1, r, h => by
    simp only [List.getElem?_cons_succ] at h
    obtain ⟨pre, post, hj⟩ := joinComma_getElem (t1 :: ts) i r h
    exact ⟨t0 ++ "," ++ pre, post, by simp [joinComma, hj, String.append_assoc]⟩

theorem encodeEntries_value_record (E : TextEncoding) (esp : Bool) (f : String)
    (a : Float64) :
    encodeEntries E ((AddCall.value f a).record esp)
      = (match E.formatFloat a with
         | .ok ta => .ok [("field", E.quote f), ("amount", ta)]
         | .error err => .error err) := by
  simp only [AddCall.record, encodeEntries, encodeValue]
  cases E.formatFloat a <;> rfl

theorem objectText_value_record (E : TextEncoding) (f ta : String) :
    objectText E [("field", E.quote f), ("amount", ta)]
      = "\x7b" ++ E.quote "amount" ++ ":" ++ ta ++ "," ++ E.quote "field" ++ ":"
          ++ E.quote f ++ "\x7d" := by
  simp [objectText, sortByKey, insertByKey, strLt, joinComma, String.append_assoc]

theorem encode_payload (E : TextEncoding) (g : Globals) (id e t : String)
    (recs : List MSI) :
    encodeValue E (Value.msi
        ((if g.espSupported then
            [("messageId", Value.str id), ("datetime", Value.str t)]
          else
            [("entity", Value.str e), ("commandId", Value.str id),
             ("datetime", Value.str t)]) ++ [("values", Value.msiSlice recs)]))
      = (match encodeMaps E recs with
         | .ok ts =>
           .ok ("\x7b" ++
             (if g.espSupported then
                E.quote "datetime" ++ ":" ++ E.quote t ++ "," ++ E.quote "messageId" ++ ":"
                  ++ E.quote id
              else
                E.quote "commandId" ++ ":" ++ E.quote id ++ "," ++ E.quote "datetime" ++ ":"
                  ++ E.quote t ++ "," ++ E.quote "entity" ++ ":" ++ E.quote e)
             ++ "," ++ E.quote "values" ++ ":" ++ "[" ++ joinComma ts ++ "]" ++ "\x7d")
         | .error err => .error err) := by
  cases g.espSupported <;> cases hm : encodeMaps E recs <;>
    simp [encodeValue, encodeEntries, hm, objectText, sortByKey, insertByKey, strLt,
      joinComma, String.append_assoc] <;> rfl

theorem NewSensorValueMessage_payload (g : Globals) (id e t : String) :
    (NewSensorValueMessage g id e t).Payload
      = (if g.espSupported then
            [("messageId", Value.str id), ("datetime", Value.str t)]
          else
            [("entity", Value.str e), ("commandId", Value.str id),
             ("datetime", Value.str t)]) ++ [("values", Value.msiSlice [])] := by
  unfold NewSensorValueMessage
  cases g.espSupported <;> rfl


/-- C13, amended: `json.Marshal` writes the keys of a map in sorted order. For every
envelope built by `NewSensorValueMessage` and any sequence of `Add*` calls, whenever the
payload serializes, `json()` returns the object whose last entry `values` is the array of
the records in call order, and every record appended by `AddValue(f, a)` is written, at
its position in that array, as the object in which the `"amount"` entry is immediately
followed by the `"field"` entry, a contiguous piece of the serialized payload; when the
amount of such a record cannot be written as a JSON number, serialization fails and
`json()` returns the empty byte sequence. In the scenario of dialect B, entity
`"/zone1/tempSensor"` and `AddValue("temperature", 21.5)` the serialized payload contains
the contiguous text `"amount":21.5,"field":"temperature"` inside a one-element values
array. -/
theorem amount_then_field (E : TextEncoding) (g : Globals) (id e t : String)
    (calls : List AddCall) :
    (∃ svm, applyCalls (NewSensorValueMessage g id e t) calls = some svm ∧
      (∀ text : String, encodeValue E (Value.msi svm.Payload) = .ok text →
        svm.json (goJson E) = utf8Bytes text ∧
        ∃ ts : List String, ts.length = calls.length ∧
          text = "\x7b" ++
             (if g.espSupported then
                E.quote "datetime" ++ ":" ++ E.quote t ++ "," ++ E.quote "messageId" ++ ":"
                  ++ E.quote id
              else
                E.quote "commandId" ++ ":" ++ E.quote id ++ "," ++ E.quote "datetime" ++ ":"
                  ++ E.quote t ++ "," ++ E.quote "entity" ++ ":" ++ E.quote e)
             ++ "," ++ E.quote "values" ++ ":" ++ "[" ++ joinComma ts ++ "]" ++ "\x7d" ∧
          ∀ (i : Nat) (f : String) (a : Float64), calls[i]? = some (AddCall.value f a) →
            ∃ ta : String, E.formatFloat a = .ok ta ∧
              ts[i]? = some ("\x7b" ++ E.quote "amount" ++ ":" ++ ta ++ ","
                              ++ E.quote "field" ++ ":" ++ E.quote f ++ "\x7d") ∧
              containsText text.data
                ("\x7b" ++ E.quote "amount" ++ ":" ++ ta ++ "," ++ E.quote "field" ++ ":"
                  ++ E.quote f ++ "\x7d").data = true) ∧
      (∀ (f : String) (a : Float64) (err : Error), AddCall.value f a ∈ calls →
        E.formatFloat a = .error err → svm.json (goJson E) = [])) ∧
    ((NewSensorValueMessage { espSupported := false } "u1" "/zone1/tempSensor"
        "2024-01-01T00:00:00.000Z").AddValue "temperature"
        { bits := 0x4035800000000000 }).map
      (fun svm => encodeValue sampleText (Value.msi svm.Payload))
      = some (.ok "\x7b\"commandId\":\"u1\",\"datetime\":\"2024-01-01T00:00:00.000Z\",\"entity\":\"/zone1/tempSensor\",\"values\":[\x7b\"amount\":21.5,\"field\":\"temperature\"\x7d]\x7d") ∧
    containsText
      "\x7b\"commandId\":\"u1\",\"datetime\":\"2024-01-01T00:00:00.000Z\",\"entity\":\"/zone1/tempSensor\",\"values\":[\x7b\"amount\":21.5,\"field\":\"temperature\"\x7d]\x7d".data
      "\"amount\":21.5,\"field\":\"temperature\"".data = true := by
  refine ⟨?_, by rfl, by decide⟩
  have hbase : ∀ p ∈ (if g.espSupported then
        [("messageId", Value.str id), ("datetime", Value.str t)]
      else
        [("entity", Value.str e), ("commandId", Value.str id), ("datetime", Value.str t)]),
      p.1 ≠ "values" := by
    intro p hp
    cases hg : g.espSupported
    · rw [hg] at hp
      simp only [Bool.false_eq_true, if_false, List.mem_cons, List.mem_singleton,
        List.mem_nil_iff, or_false] at hp
      rcases hp with h | h | h <;> rw [h] <;> simp
    · rw [hg] at hp
      simp only [if_true, List.mem_cons, List.mem_singleton, List.mem_nil_iff,
        or_false] at hp
      rcases hp with h | h <;> rw [h] <;> simp
  obtain ⟨svm, h1, _, h3⟩ :=
    applyCalls_payload calls (NewSensorValueMessage g id e t) _ []
      (NewSensorValueMessage_payload g id e t) hbase
  rw [NewSensorValueMessage_Esp, List.nil_append] at h3
  refine ⟨svm, h1, ?_, ?_⟩
  · intro text htext
    have hjson : svm.json (goJson E) = utf8Bytes text := by
      simp [SensorValueMessage.json, goJson, htext]
    refine ⟨hjson, ?_⟩
    rw [h3, encode_payload] at htext
    cases hm : encodeMaps E (calls.map (AddCall.record g.espSupported)) with
    | error err => rw [hm] at htext; simp at htext
    | ok ts =>
      rw [hm] at htext
      simp only [Except.ok.injEq] at htext
      obtain ⟨hlen, hrec⟩ := encodeMaps_ok E _ ts hm
      refine ⟨ts, by simpa using hlen, htext.symm, ?_⟩
      intro i f a hi
      have hri : (calls.map (AddCall.record g.espSupported))[i]?
          = some ((AddCall.value f a).record g.espSupported) := by
        simp [List.getElem?_map, hi]
      obtain ⟨es, hes, hts⟩ := hrec i _ hri
      rw [encodeEntries_value_record] at hes
      cases hf : E.formatFloat a with
      | error err => rw [hf] at hes; simp at hes
      | ok ta =>
        rw [hf] at hes
        simp only [Except.ok.injEq] at hes
        subst hes
        rw [objectText_value_record] at hts
        refine ⟨ta, rfl, hts, ?_⟩
        obtain ⟨pre, post, hj⟩ := joinComma_getElem ts i _ hts
        apply containsText_of_eq text
          ("\x7b" ++
             (if g.espSupported then
                E.quote "datetime" ++ ":" ++ E.quote t ++ "," ++ E.quote "messageId" ++ ":"
                  ++ E.quote id
              else
                E.quote "commandId" ++ ":" ++ E.quote id ++ "," ++ E.quote "datetime" ++ ":"
                  ++ E.quote t ++ "," ++ E.quote "entity" ++ ":" ++ E.quote e)
             ++ "," ++ E.quote "values" ++ ":" ++ "[" ++ pre) _ (post ++ "]" ++ "\x7d")
        rw [← htext, hj]
        simp only [String.append_assoc]
  · intro f a err hmem hf
    have hr : (AddCall.value f a).record g.espSupported
        ∈ calls.map (AddCall.record g.espSupported) := List.mem_map_of_mem _ hmem
    have he : encodeEntries E ((AddCall.value f a).record g.espSupported) = .error err := by
      rw [encodeEntries_value_record, hf]
    obtain ⟨err1, h4⟩ := encodeMaps_error E _ _ err hr he
    have h5 : encodeValue E (Value.msi svm.Payload) = .error err1 := by
      rw [h3, encode_payload, h4]
    simp [SensorValueMessage.json, goJson, h5]

/-- An instance of `amount_then_field`: dialect B, entity `"/zone1/tempSensor"`,
`AddValue("temperature", 21.5)`, with the sample text functions. -/
theorem amount_then_field_witness :
    applyCalls
        (NewSensorValueMessage { espSupported := false } "u1" "/zone1/tempSensor"
          "2024-01-01T00:00:00.000Z")
        [AddCall.value "temperature" { bits := 0x4035800000000000 }]
      = some
          { Esp := false, Topic := "sdw/zone1/tempSensor",
            Payload := [("entity", Value.str "/zone1/tempSensor"),
              ("commandId", Value.str "u1"),
              ("datetime", Value.str "2024-01-01T00:00:00.000Z"),
              ("values", Value.msiSlice
                [[("field", Value.str "temperature"),
                  ("amount", Value.float { bits := 0x4035800000000000 })]])] } ∧
    ∃ ta : String, sampleText.formatFloat { bits := 0x4035800000000000 } = .ok ta ∧
      containsText
        "\x7b\"commandId\":\"u1\",\"datetime\":\"2024-01-01T00:00:00.000Z\",\"entity\":\"/zone1/tempSensor\",\"values\":[\x7b\"amount\":21.5,\"field\":\"temperature\"\x7d]\x7d".data
        ("\x7b" ++ sampleText.quote "amount" ++ ":" ++ ta ++ "," ++ sampleText.quote "field"
          ++ ":" ++ sampleText.quote "temperature" ++ "\x7d").data = true := by
  refine ⟨by rfl, ?_⟩
  obtain ⟨svm, h1, h2, _⟩ :=
    (amount_then_field sampleText { espSupported := false } "u1" "/zone1/tempSensor"
      "2024-01-01T00:00:00.000Z"
      [AddCall.value "temperature" { bits := 0x4035800000000000 }]).1
  have hs : applyCalls
      (NewSensorValueMessage { espSupported := false } "u1" "/zone1/tempSensor"
        "2024-01-01T00:00:00.000Z")
      [AddCall.value "temperature" { bits := 0x4035800000000000 }]
      = some
          { Esp := false, Topic := "sdw/zone1/tempSensor",
            Payload := [("entity", Value.str "/zone1/tempSensor"),
              ("commandId", Value.str "u1"),
              ("datetime", Value.str "2024-01-01T00:00:00.000Z"),
              ("values", Value.msiSlice
                [[("field", Value.str "temperature"),
                  ("amount", Value.float { bits := 0x4035800000000000 })]])] } := by rfl
  rw [hs] at h1
  have hsvm := Option.some.inj h1
  subst hsvm
  obtain ⟨_, ts, _, _, h5⟩ :=
    h2 "\x7b\"commandId\":\"u1\",\"datetime\":\"2024-01-01T00:00:00.000Z\",\"entity\":\"/zone1/tempSensor\",\"values\":[\x7b\"amount\":21.5,\"field\":\"temperature\"\x7d]\x7d"
      (by rfl)
  obtain ⟨ta, hta, _, hc⟩ := h5 0 "temperature" { bits := 0x4035800000000000 } rfl
  exact ⟨ta, hta, hc⟩

/-- C16: when marshalling the payload of an envelope fails, `json()` returns the empty
byte sequence, and `PublishValueMessage` on a connected client still makes exactly one
transport call: a publish to the envelope's `"[value]"` topic with the empty payload. -/
theorem json_failure_publishes_empty {σ : Type} (T : MqttClient σ) (J : Json)
    (c : SAMqttClient σ) (svm : SensorValueMessage) (e : Error)
    (hfail : J.marshalMSI svm.Payload = .error e)
    (hconn : T.IsConnected c.client = true) :
    svm.json J = [] ∧
    (c.PublishValueMessage T J svm).2
      = [Effect.publish (svm.Topic ++ "[value]") 0 false []] := by
  have hj : svm.json J = [] := by
    simp [SensorValueMessage.json, hfail]
  refine ⟨hj, ?_⟩
  unfold SAMqttClient.PublishValueMessage
  simp only [hj]
  exact Publish_effects_of_connected T c _ _ hconn

/-- An instance of `json_failure_publishes_empty`: a dialect B envelope whose one record
has an attributes map holding a value that cannot be marshalled. -/
theorem json_failure_publishes_empty_witness :
    (NewSensorValueMessage { espSupported := false } "u1" "/a" "t").AddValueAttrib
        "temperature" { bits := 0x4035800000000000 } [("probe", Value.other 1)]
      = some
          { Esp := false, Topic := "sdw/a",
            Payload := [("entity", Value.str "/a"), ("commandId", Value.str "u1"),
              ("datetime", Value.str "t"),
              ("values", Value.msiSlice
                [[("field", Value.str "temperature"),
                  ("amount", Value.float { bits := 0x4035800000000000 }),
                  ("attributes", Value.msi [("probe", Value.other 1)])]])] } ∧
    (goJson sampleText).marshalMSI
        [("entity", Value.str "/a"), ("commandId", Value.str "u1"),
          ("datetime", Value.str "t"),
          ("values", Value.msiSlice
            [[("field", Value.str "temperature"),
              ("amount", Value.float { bits := 0x4035800000000000 }),
              ("attributes", Value.msi [("probe", Value.other 1)])]])]
      = .error { msg := "json: unsupported type" } ∧
    simTransport.IsConnected
      ({ simClient with client := { connected := true, brokerUp := true } } :
        SAMqttClient Sim).client = true ∧
    (({ simClient with client := { connected := true, brokerUp := true } } :
        SAMqttClient Sim).PublishValueMessage simTransport (goJson sampleText)
      { Esp := false, Topic := "sdw/a",
        Payload := [("entity", Value.str "/a"), ("commandId", Value.str "u1"),
          ("datetime", Value.str "t"),
          ("values", Value.msiSlice
            [[("field", Value.str "temperature"),
              ("amount", Value.float { bits := 0x4035800000000000 }),
              ("attributes", Value.msi [("probe", Value.other 1)])]])] }).2
      = [Effect.publish ("sdw/a" ++ "[value]") 0 false []] :=
  ⟨by rfl, by rfl, rfl,
   (json_failure_publishes_empty simTransport (goJson sampleText)
      ({ simClient with client := { connected := true, brokerUp := true } })
      { Esp := false, Topic := "sdw/a",
        Payload := [("entity", Value.str "/a"), ("commandId", Value.str "u1"),
          ("datetime", Value.str "t"),
          ("values", Value.msiSlice
            [[("field", Value.str "temperature"),
              ("amount", Value.float { bits := 0x4035800000000000 }),
              ("attributes", Value.msi [("probe", Value.other 1)])]])] }
      { msg := "json: unsupported type" } (by rfl) rfl).2⟩

/-! ## Serializing twice (C14) -/

theorem strLt_asymm : ∀ (u v : List Char), strLt u v = true → strLt v u = false
  | _, [], h => by cases ‹List Char› <;> simp [strLt] at h
  | [], _ :: _, _ => rfl
  | c :: cs, d :: ds, h => by
    simp only [strLt] at h ⊢
    by_cases hcd : c.toNat < d.toNat
    · have : ¬ d.toNat < c.toNat := by omega
      simp [this, hcd]
    · by_cases hdc : d.toNat < c.toNat
      · simp [hcd, hdc] at h
      · simp only [hcd, hdc, if_false] at h ⊢
        exact strLt_asymm cs ds h

theorem strLt_trans (u v w : List Char) (h1 : strLt u v = true) (h2 : strLt v w = true) :
    strLt u w = true := by
  rcases strLt_cotrans u w v h1 with h | h
  · exact h
  · rw [strLt_asymm v w h2] at h
    exact absurd h (by simp)

theorem strLt_total (k1 k2 : String) (hne : k1 ≠ k2) (h : strLt k1.data k2.data = false) :
    strLt k2.data k1.data = true := by
  cases h2 : strLt k2.data k1.data with
  | true => rfl
  | false => exact absurd (String.ext (strLt_antisymm k1.data k2.data h h2)) hne

theorem insertByKey_comm (k1 t1 k2 t2 : String) (hne : k1 ≠ k2) :
    ∀ l : List (String × String),
      insertByKey k1 t1 (insertByKey k2 t2 l) = insertByKey k2 t2 (insertByKey k1 t1 l) := by
  intro l
  induction l with
  | nil =>
    cases h12 : strLt k1.data k2.data with
    | true =>
      have h21 := strLt_asymm _ _ h12
      simp [insertByKey, h12, h21]
    | false =>
      have h21 := strLt_total k1 k2 hne h12
      simp [insertByKey, h12, h21]
  | cons x xs ih =>
    obtain ⟨kx, tx⟩ := x
    cases h2x : strLt k2.data kx.data with
    | true =>
      cases h12 : strLt k1.data k2.data with
      | true =>
        have h1x := strLt_trans _ _ _ h12 h2x
        have h21 := strLt_asymm _ _ h12
        simp [insertByKey, h2x, h12, h1x, h21]
      | false =>
        have h21 := strLt_total k1 k2 hne h12
        cases h1x : strLt k1.data kx.data with
        | true => simp [insertByKey, h2x, h12, h1x, h21]
        | false => simp [insertByKey, h2x, h12, h1x]
    | false =>
      cases h1x : strLt k1.data kx.data with
      | true =>
        have h21 : strLt k2.data k1.data = false := by
          cases h : strLt k2.data k1.data with
          | false => rfl
          | true =>
            have := strLt_trans _ _ _ h h1x
            rw [h2x] at this
            exact absurd this (by simp)
        simp [insertByKey, h2x, h1x, h21]
      | false => simp [insertByKey, h2x, h1x, ih]

theorem sortByKey_perm (l1 l2 : List (String × String)) (h : l1.Perm l2) :
    (l1.map Prod.fst).Nodup → sortByKey l1 = sortByKey l2 := by
  induction h with
  | nil => intro _; rfl
  | cons x _ ih =>
    intro hn
    obtain ⟨k, t⟩ := x
    simp only [List.map_cons, List.nodup_cons] at hn
    simp only [sortByKey, ih hn.2]
  | swap x y l =>
    intro hn
    obtain ⟨kx, tx⟩ := x
    obtain ⟨ky, ty⟩ := y
    simp only [List.map_cons, List.nodup_cons, List.mem_cons, not_or] at hn
    simp only [sortByKey]
    exact insertByKey_comm ky ty kx tx hn.1.1 _
  | trans h1 _ ih1 ih2 =>
    intro hn
    rw [ih1 hn]
    exact ih2 (((h1.map Prod.fst).nodup_iff).1 hn)

theorem objectTextIn_eq (E : TextEncoding) (ρ : MapOrder) (es : List (String × String))
    (hn : (es.map Prod.fst).Nodup) : objectTextIn E ρ es = objectText E es := by
  unfold objectTextIn objectText
  rw [sortByKey_perm _ _ (ρ.perm es) ((((ρ.perm es).map Prod.fst).nodup_iff).2 hn)]

theorem encodeEntries_keys (E : TextEncoding) :
    ∀ (m : List (String × Value)) (es : List (String × String)),
      encodeEntries E m = .ok es → es.map Prod.fst = m.map Prod.fst := by
  intro m
  induction m with
  | nil =>
    intro es h
    simp only [encodeEntries, Except.ok.injEq] at h
    subst h
    rfl
  | cons p m ih =>
    intro es h
    obtain ⟨k, v⟩ := p
    simp only [encodeEntries] at h
    cases hv : encodeValue E v with
    | error err => rw [hv] at h; simp at h
    | ok tv =>
      rw [hv] at h
      simp only at h
      cases hm : encodeEntries E m with
      | error err => rw [hm] at h; simp at h
      | ok es1 =>
        rw [hm] at h
        simp only [Except.ok.injEq] at h
        subst h
        simp [ih es1 hm]

mutual
theorem encodeValueIn_eq (E : TextEncoding) (ρ : MapOrder) :
    ∀ v : Value, v.keysDistinct → encodeValueIn E ρ v = encodeValue E v
  | .str _, _ => rfl
  | .float _, _ => rfl
  | .other _, _ => rfl
  | .bool _, _ => rfl
  | .int _, _ => rfl
  | .null, _ => rfl
  | .msi m, h => by
    simp only [Value.keysDistinct] at h
    simp only [encodeValueIn, encodeValue, encodeEntriesIn_eq E ρ m h.2]
    cases hm : encodeEntries E m with
    | error err => rfl
    | ok es =>
      have hk := encodeEntries_keys E m es hm
      simp only [objectTextIn_eq E ρ es (hk ▸ h.1)]
  | .msiSlice l, h => by
    simp only [Value.keysDistinct] at h
    simp only [encodeValueIn, encodeValue, encodeMapsIn_eq E ρ l h]
theorem encodeEntriesIn_eq (E : TextEncoding) (ρ : MapOrder) :
    ∀ m : List (String × Value), entriesDistinct m →
      encodeEntriesIn E ρ m = encodeEntries E m
  | [], _ => rfl
  | (k, v) :: m, h => by
    simp only [entriesDistinct] at h
    simp only [encodeEntriesIn, encodeEntries, encodeValueIn_eq E ρ v h.1,
      encodeEntriesIn_eq E ρ m h.2]
theorem encodeMapsIn_eq (E : TextEncoding) (ρ : MapOrder) :
    ∀ l : List (List (String × Value)), mapsDistinct l →
      encodeMapsIn E ρ l = encodeMaps E l
  | [], _ => rfl
  | m :: l, h => by
    simp only [mapsDistinct] at h
    simp only [encodeMapsIn, encodeMaps, encodeEntriesIn_eq E ρ m h.1.2,
      encodeMapsIn_eq E ρ l h.2]
    cases hm : encodeEntries E m with
    | error err => rfl
    | ok es =>
      have hk := encodeEntries_keys E m es hm
      simp only [objectTextIn_eq E ρ es (hk ▸ h.1.1)]
end

theorem record_distinct (esp : Bool) (k : AddCall) (h : k.attrsDistinct) :
    ((k.record esp).map Prod.fst).Nodup ∧ entriesDistinct (k.record esp) := by
  cases k with
  | value f a => simp [AddCall.record, entriesDistinct, Value.keysDistinct]
  | valueAttrib f a attrs =>
    simp only [AddCall.attrsDistinct] at h
    simp [AddCall.record, entriesDistinct, Value.keysDistinct] at h ⊢
    exact h
  | valueCreated f a cr =>
    cases esp <;> simp [AddCall.record, entriesDistinct, Value.keysDistinct]
  | valueAttribCreated f a attrs cr =>
    simp only [AddCall.attrsDistinct] at h
    cases esp <;> simp [AddCall.record, entriesDistinct, Value.keysDistinct] at h ⊢ <;>
      exact h

theorem records_distinct (esp : Bool) (calls : List AddCall)
    (h : ∀ k ∈ calls, k.attrsDistinct) : mapsDistinct (calls.map (AddCall.record esp)) := by
  induction calls with
  | nil => simp [mapsDistinct]
  | cons k ks ih =>
    simp only [List.map_cons, mapsDistinct]
    exact ⟨record_distinct esp k (h k (List.mem_cons_self _ _)),
      ih (fun q hq => h q (List.mem_cons_of_mem _ hq))⟩

theorem payload_distinct (g : Globals) (id e t : String) (recs : List MSI)
    (h : mapsDistinct recs) :
    Value.keysDistinct (Value.msi
      ((if g.espSupported then
          [("messageId", Value.str id), ("datetime", Value.str t)]
        else
          [("entity", Value.str e), ("commandId", Value.str id),
           ("datetime", Value.str t)]) ++ [("values", Value.msiSlice recs)])) := by
  cases g.espSupported <;> simp [Value.keysDistinct, entriesDistinct, h]

theorem json_order_irrelevant (E : TextEncoding) (ρ : MapOrder) (svm : SensorValueMessage)
    (h : Value.keysDistinct (Value.msi svm.Payload)) :
    svm.json (goJsonIn E ρ) = svm.json (goJson E) := by
  simp only [SensorValueMessage.json, goJsonIn, goJson, encodeValueIn_eq E ρ _ h]

/-- C14: for every envelope, two `json()` calls with no `Add*` call in between return
the same bytes and leave the envelope (`Esp`, `Topic`, `Payload`) as it was, and so does
any number of consecutive calls. In particular the order in which a call of
`json.Marshal` ranges over the maps of the payload, which Go does not fix and which may
differ between the two calls, does not show in the bytes: the keys of every map are
sorted before they are written. This holds for every envelope whose maps have distinct
keys (every Go map has), among them every envelope built by `NewSensorValueMessage` and
`Add*` calls. -/
theorem json_twice_identical (J : Json) (svm : SensorValueMessage) (n : Nat) :
    runOps J svm [EnvelopeOp.json, EnvelopeOp.json]
      = some (svm, [svm.json J, svm.json J]) ∧
    runOps J svm (List.replicate n EnvelopeOp.json)
      = some (svm, List.replicate n (svm.json J)) ∧
    (∀ (E : TextEncoding) (ρ1 ρ2 : MapOrder),
      Value.keysDistinct (Value.msi svm.Payload) →
      svm.json (goJsonIn E ρ1) = svm.json (goJsonIn E ρ2)) ∧
    (∀ (E : TextEncoding) (ρ1 ρ2 : MapOrder),
      Value.keysDistinct (Value.msi svm.Payload) →
      ∃ b : Bytes, runOps (goJsonIn E ρ1) svm [EnvelopeOp.json] = some (svm, [b]) ∧
        runOps (goJsonIn E ρ2) svm [EnvelopeOp.json] = some (svm, [b])) ∧
    (∀ (E : TextEncoding) (ρ1 ρ2 : MapOrder) (g : Globals) (id e t : String)
        (calls : List AddCall), (∀ k ∈ calls, k.attrsDistinct) →
      ∃ svm1, applyCalls (NewSensorValueMessage g id e t) calls = some svm1 ∧
        svm1.json (goJsonIn E ρ1) = svm1.json (goJsonIn E ρ2)) := by
  refine ⟨rfl, ?_, ?_, ?_, ?_⟩
  · induction n with
    | zero => rfl
    | succ n ih => simp only [List.replicate_succ, runOps, ih]
  · intro E ρ1 ρ2 h
    rw [json_order_irrelevant E ρ1 svm h, json_order_irrelevant E ρ2 svm h]
  · intro E ρ1 ρ2 h
    refine ⟨svm.json (goJson E), ?_, ?_⟩
    · rw [← json_order_irrelevant E ρ1 svm h]
      rfl
    · rw [← json_order_irrelevant E ρ2 svm h]
      rfl
  · intro E ρ1 ρ2 g id e t calls hc
    have hbase : ∀ p ∈ (if g.espSupported then
          [("messageId", Value.str id), ("datetime", Value.str t)]
        else
          [("entity", Value.str e), ("commandId", Value.str id),
           ("datetime", Value.str t)]),
        p.1 ≠ "values" := by
      intro p hp
      cases hg : g.espSupported
      · rw [hg] at hp
        simp only [Bool.false_eq_true, if_false, List.mem_cons, List.mem_singleton,
          List.mem_nil_iff, or_false] at hp
        rcases hp with h | h | h <;> rw [h] <;> simp
      · rw [hg] at hp
        simp only [if_true, List.mem_cons, List.mem_singleton, List.mem_nil_iff,
          or_false] at hp
        rcases hp with h | h <;> rw [h] <;> simp
    obtain ⟨svm1, h1, _, h3⟩ :=
      applyCalls_payload calls (NewSensorValueMessage g id e t) _ []
        (NewSensorValueMessage_payload g id e t) hbase
    rw [NewSensorValueMessage_Esp, List.nil_append] at h3
    have hd : Value.keysDistinct (Value.msi svm1.Payload) := by
      rw [h3]
      exact payload_distinct g id e t _ (records_distinct _ calls hc)
    exact ⟨svm1, h1, by
      rw [json_order_irrelevant E ρ1 svm1 hd, json_order_irrelevant E ρ2 svm1 hd]⟩

/-- An instance of `json_twice_identical`: the dialect B envelope with one record,
serialized by a call that ranges over the maps as listed and by a call that ranges over
them last to first. -/
theorem json_twice_identical_witness :
    Value.keysDistinct (Value.msi
      [("entity", Value.str "/zone1/tempSensor"), ("commandId", Value.str "u1"),
       ("datetime", Value.str "2024-01-01T00:00:00.000Z"),
       ("values", Value.msiSlice
         [[("field", Value.str "temperature"),
           ("amount", Value.float { bits := 0x4035800000000000 })]])]) ∧
    encodeValueIn sampleText reverseOrder (Value.msi
      [("entity", Value.str "/zone1/tempSensor"), ("commandId", Value.str "u1"),
       ("datetime", Value.str "2024-01-01T00:00:00.000Z"),
       ("values", Value.msiSlice
         [[("field", Value.str "temperature"),
           ("amount", Value.float { bits := 0x4035800000000000 })]])])
      = .ok "\x7b\"commandId\":\"u1\",\"datetime\":\"2024-01-01T00:00:00.000Z\",\"entity\":\"/zone1/tempSensor\",\"values\":[\x7b\"amount\":21.5,\"field\":\"temperature\"\x7d]\x7d" ∧
    SensorValueMessage.json (goJsonIn sampleText listOrder)
        { Esp := false, Topic := "sdw/zone1/tempSensor",
          Payload := [("entity", Value.str "/zone1/tempSensor"),
            ("commandId", Value.str "u1"),
            ("datetime", Value.str "2024-01-01T00:00:00.000Z"),
            ("values", Value.msiSlice
              [[("field", Value.str "temperature"),
                ("amount", Value.float { bits := 0x4035800000000000 })]])] }
      = SensorValueMessage.json (goJsonIn sampleText reverseOrder)
        { Esp := false, Topic := "sdw/zone1/tempSensor",
          Payload := [("entity", Value.str "/zone1/tempSensor"),
            ("commandId", Value.str "u1"),
            ("datetime", Value.str "2024-01-01T00:00:00.000Z"),
            ("values", Value.msiSlice
              [[("field", Value.str "temperature"),
                ("amount", Value.float { bits := 0x4035800000000000 })]])] } :=
  ⟨by simp [Value.keysDistinct, entriesDistinct, mapsDistinct], by rfl,
   (json_twice_identical simJson
      { Esp := false, Topic := "sdw/zone1/tempSensor",
        Payload := [("entity", Value.str "/zone1/tempSensor"),
          ("commandId", Value.str "u1"),
          ("datetime", Value.str "2024-01-01T00:00:00.000Z"),
          ("values", Value.msiSlice
            [[("field", Value.str "temperature"),
              ("amount", Value.float { bits := 0x4035800000000000 })]])] }
      2).2.2.1 sampleText listOrder reverseOrder
      (by simp [Value.keysDistinct, entriesDistinct, mapsDistinct])⟩

end Samqttif
